import Mathlib

/-!
# BTL2_Games: the football match simulation of `src/BTL2_Game/main.cpp`

A shallow embedding of the simulation core (players, ball, teams, goals and the
body of the game loop) followed by theorems about it.

Modelling conventions.

* C++ `float` values are elements of an arbitrary linearly ordered field `F`;
  `sqrt` is a parameter `sqrtF : F → F`. The operations of the collision test are
  rounded with `FloatRounding.round`: the identity over the rationals and the reals
  (exact arithmetic), IEEE 754 binary32 rounding over `F32` (with `sqrtF32`). The
  other `float` computations are exact.
* C++ `int` values are `Int`.  The squares of `Player::updateDirection` and their
  sum are 32-bit `int` values: they are computed modulo `2 ^ 32` (`wrapInt32`, the
  two's complement result of the machine instructions). The other `int`
  computations stay far from the bounds of a 32-bit `int` in every run of the game
  and are not wrapped.
* `Uint32` values are `Nat` below `2 ^ 32`; subtraction wraps modulo `2 ^ 32`.
* `Player*` is `Option PlayerRef`: a team tag and an index into that team's
  roster (the rosters are never resized, so addresses are stable).
* Every call of `SDL_GetTicks()` and the keyboard snapshot are inputs of a tick.
  Rendering is left out.
-/

namespace BTL2

set_option linter.unusedSectionVars false
set_option linter.unusedVariables false

/-! ## Constants -/

/-- Source line `const int SCREEN_WIDTH = 800;` -/
def SCREEN_WIDTH : Int := 800

/-- Source line `const int SCREEN_HEIGHT = 600;` -/
def SCREEN_HEIGHT : Int := 600

/-- Source line `int speed = 5;` of `main`. -/
def speed : Int := 5

/-- Source line `const int MATCH_DURATION = 60000;` of `main`. -/
def MATCH_DURATION : Nat := 60000

/-- Source line `const Uint32 MAX_CHARGE_TIME = 2000;` of `Ball`. -/
def MAX_CHARGE_TIME : Nat := 2000

/-! ## Machine integers -/

/-- The number of `Uint32` values, `2 ^ 32`. -/
def UINT32_SIZE : Nat := 4294967296

/-- Conversion of a natural number to `Uint32`. -/
def toUint32 (n : Nat) : Nat := n % UINT32_SIZE

/-- Subtraction of two `Uint32` values: wraps modulo `2 ^ 32`. -/
def subUint32 (a b : Nat) : Nat := (toUint32 a + UINT32_SIZE - toUint32 b) % UINT32_SIZE

/-- Conversion of a `Uint32` value to `int` (two's complement). -/
def uint32ToInt (n : Nat) : Int :=
  if toUint32 n < 2147483648 then (toUint32 n : Int) else (toUint32 n : Int) - 4294967296

/-- The value of a 32-bit `int` computation whose mathematical result is `n`: the
representative of `n` modulo `2 ^ 32` in the range from `-2 ^ 31` to `2 ^ 31 - 1`. -/
def wrapInt32 (n : Int) : Int := (n + 2147483648) % 4294967296 - 2147483648

/-! ## Player -/

/-- Class `Player` without its colour: position, radius, active flag and facing. -/
structure Player (F : Type) where
  x : Int
  y : Int
  radius : Int
  active : Bool
  dirX : F
  dirY : F

/-- Which roster a player belongs to. -/
inductive TeamId where
  | team1
  | team2
  deriving DecidableEq, Repr

/-- The address of a roster element: the value of a non-null `Player*`. -/
structure PlayerRef where
  team : TeamId
  idx : Nat
  deriving DecidableEq, Repr

/-! ## Float arithmetic -/

/-- The rounding applied to the result of a `float` operation. The collision test
of `checkCollision` branches on a rounded distance, so its operations are rounded
with `round`; carriers of exact arithmetic round nothing, `F32` rounds as IEEE 754
binary32 does. -/
class FloatRounding (F : Type) where
  /-- The `float` nearest to a value. -/
  round : F → F

/-- Exact arithmetic over the rationals. -/
instance instFloatRoundingRat : FloatRounding ℚ := ⟨fun x => x⟩

/-- Exact arithmetic over the reals. -/
instance instFloatRoundingReal : FloatRounding ℝ := ⟨fun x => x⟩

/-- The integer nearest to `m`, ties going to the even one. -/
def roundHalfEven (m : ℚ) : ℤ :=
  if m - ⌊m⌋ < 1 / 2 then ⌊m⌋
  else if 1 / 2 < m - ⌊m⌋ then ⌊m⌋ + 1
  else if ⌊m⌋ % 2 = 0 then ⌊m⌋ else ⌊m⌋ + 1

/-- The exponent of the unit in the last place of binary32 at a positive value `a`:
24 significant bits, and `2 ^ (-149)` in the subnormal range. -/
def quantum32 (a : ℚ) : ℤ := max (Int.log 2 a - 23) (-149)

/-- Rounding of a positive value to binary32, to nearest, ties to even. Overflow to
infinity is not modelled: a value past the largest `float` is rounded with an
unbounded exponent. -/
def roundPos32 (a : ℚ) : ℚ := (roundHalfEven (a / 2 ^ quantum32 a) : ℚ) * 2 ^ quantum32 a

/-- Rounding of a value to binary32, to nearest, ties to even. -/
def roundF32 (q : ℚ) : ℚ :=
  if 0 < q then roundPos32 q else if q < 0 then -roundPos32 (-q) else 0

/-- The `float` square root, correctly rounded: `sqrt q` lies in the interval from
`n / 2 ^ k` to `(n + 1) / 2 ^ k` for the integer square root `n` of `q * 4 ^ k`, a
number of 41 bits, so it rounds as `n / 2 ^ k` does when it is that number and as the
midpoint of the interval does when not. The square root of a negative value (a NaN)
is not modelled and reads 0. -/
def sqrtRound32 (q : ℚ) : ℚ :=
  if q ≤ 0 then 0
  else
    let k : ℤ := 40 - Int.log 2 q / 2
    let scaled : ℚ := q * 4 ^ k
    let n : ℕ := Nat.sqrt ⌊scaled⌋₊
    let x : ℚ := if (n : ℚ) * n = scaled then n else n + 1 / 2
    roundF32 (x / 2 ^ k)

/-- The carrier of `float` values with binary32 rounding: the rationals. -/
def F32 : Type := ℚ

/-- The field structure of `F32` is that of the rationals. -/
instance instLinearOrderedFieldF32 : LinearOrderedField F32 :=
  inferInstanceAs (LinearOrderedField ℚ)

/-- The results of `float` operations over `F32` are rounded to binary32. -/
instance instFloatRoundingF32 : FloatRounding F32 := ⟨roundF32⟩

/-- The `float` square root over `F32`. -/
def sqrtF32 : F32 → F32 := sqrtRound32

section Core

variable {F : Type} [LinearOrderedField F] [FloatRounding F]

/-- Constructor `Player(int x, int y, SDL_Color c)` with the member defaults
`radius = 20`, `active = false`, `dirX = 1.0f`, `dirY = 0.0f`. -/
def Player.new (x y : Int) : Player F :=
  { x := x, y := y, radius := 20, active := false, dirX := 1, dirY := 0 }

/-- Method `Player::updateDirection`. The sum of squares `dx*dx + dy*dy` is computed
in 32-bit `int` before it is handed to `sqrt`. -/
def Player.updateDirection (sqrtF : F → F) (p : Player F) (dx dy : Int) : Player F :=
  if dx ≠ 0 ∨ dy ≠ 0 then
    let len : F := sqrtF ((wrapInt32 (wrapInt32 (dx * dx) + wrapInt32 (dy * dy)) : Int) : F)
    { p with dirX := (dx : F) / len, dirY := (dy : F) / len }
  else p

/-- Method `Player::move`. -/
def Player.move (sqrtF : F → F) (p : Player F) (dx dy : Int) : Player F :=
  let p := p.updateDirection sqrtF dx dy
  let p := { p with x := p.x + dx }
  let p := { p with y := p.y + dy }
  let p := if p.x < p.radius then { p with x := p.radius } else p
  let p := if p.x > SCREEN_WIDTH - p.radius then { p with x := SCREEN_WIDTH - p.radius } else p
  let p := if p.y < p.radius then { p with y := p.radius } else p
  let p := if p.y > SCREEN_HEIGHT - p.radius then { p with y := SCREEN_HEIGHT - p.radius } else p
  p

/-! ## Ball -/

/-- Class `Ball`. -/
structure Ball (F : Type) where
  x : F
  y : F
  vx : F
  vy : F
  radius : Int
  possessedBy : Option PlayerRef
  isCharging : Bool
  chargeStartTime : Nat

/-- Source line `const float MAX_SHOT_POWER = 20.0f;` -/
def MAX_SHOT_POWER : F := 20

/-- Source line `const float MIN_SHOT_POWER = 5.0f;` -/
def MIN_SHOT_POWER : F := 5

/-- Constructor `Ball(int x, int y)` with the member defaults. -/
def Ball.new (x y : Int) : Ball F :=
  { x := (x : F), y := (y : F), vx := 4, vy := 3, radius := 5,
    possessedBy := none, isCharging := false, chargeStartTime := 0 }

/-- Method `Ball::update`; `deref` reads the player a reference points to. -/
def Ball.update (deref : PlayerRef → Player F) (b : Ball F) : Ball F :=
  match b.possessedBy with
  | some r =>
    let distance : F := (((deref r).radius + b.radius + 5 : Int) : F)
    { b with x := ((deref r).x : F) + (deref r).dirX * distance,
             y := ((deref r).y : F) + (deref r).dirY * distance }
  | none => { b with x := b.x + b.vx, y := b.y + b.vy }

/-- Method `Ball::wallCollision`. -/
def Ball.wallCollision (b : Ball F) : Ball F :=
  match b.possessedBy with
  | some _ => b
  | none =>
    let b := if b.x - (b.radius : F) ≤ 0 ∨ b.x + (b.radius : F) ≥ (SCREEN_WIDTH : F)
      then { b with vx := -b.vx } else b
    let b := if b.y - (b.radius : F) ≤ 0 ∨ b.y + (b.radius : F) ≥ (SCREEN_HEIGHT : F)
      then { b with vy := -b.vy } else b
    b

/-- Method `Ball::attachToPlayer`. -/
def Ball.attachToPlayer (b : Ball F) (player : PlayerRef) : Ball F :=
  { b with possessedBy := some player, vx := 0, vy := 0 }

/-- Method `Ball::startCharging`; `now` is the value of `SDL_GetTicks()`. -/
def Ball.startCharging (b : Ball F) (now : Nat) : Ball F :=
  match b.possessedBy with
  | some _ => { b with isCharging := true, chargeStartTime := toUint32 now }
  | none => b

/-- The charge fraction of `Ball::shoot` for a charge duration of `d` milliseconds:
`min(1.0f, (float) d / MAX_CHARGE_TIME)`. -/
def chargePower (d : Nat) : F := min 1 ((d : F) / (MAX_CHARGE_TIME : F))

/-- The shot speed of `Ball::shoot` for a charge duration of `d` milliseconds:
`MIN_SHOT_POWER + (MAX_SHOT_POWER - MIN_SHOT_POWER) * chargePower`. -/
def shotPower (d : Nat) : F :=
  MIN_SHOT_POWER + (MAX_SHOT_POWER - MIN_SHOT_POWER) * chargePower d

/-- Method `Ball::shoot`; `now` is the value of `SDL_GetTicks()`. -/
def Ball.shoot (deref : PlayerRef → Player F) (b : Ball F) (now : Nat) : Ball F :=
  match b.possessedBy with
  | none => b
  | some r =>
    let shooter := deref r
    let dx := shooter.dirX
    let dy := shooter.dirY
    let power : F := shotPower (subUint32 now b.chargeStartTime)
    { b with vx := dx * power,
             vy := dy * power,
             x := (shooter.x : F) + dx * ((shooter.radius + b.radius + 2 : Int) : F),
             y := (shooter.y : F) + dy * ((shooter.radius + b.radius + 2 : Int) : F),
             possessedBy := none,
             isCharging := false }

/-! ## Goal -/

/-- Class `Goal`: the rectangle `rect` and the team tag. -/
structure Goal where
  x : Int
  y : Int
  w : Int
  h : Int
  teamId : Int

/-- Method `Goal::checkBallInside`. -/
def Goal.checkBallInside (g : Goal) (ball : Ball F) : Bool :=
  decide (ball.x ≥ (g.x : F)) && decide (ball.x ≤ ((g.x + g.w : Int) : F)) &&
  decide (ball.y ≥ (g.y : F)) && decide (ball.y ≤ ((g.y + g.h : Int) : F))

/-- Source line `int goalWidth = 20;` of `main`. -/
def goalWidth : Int := 20

/-- Source line `int goalHeight = 150;` of `main`. -/
def goalHeight : Int := 150

/-- Source line `Goal leftGoal(0, (SCREEN_HEIGHT - goalHeight) / 2, goalWidth, goalHeight, 1);` -/
def leftGoal : Goal :=
  { x := 0, y := (SCREEN_HEIGHT - goalHeight) / 2, w := goalWidth, h := goalHeight, teamId := 1 }

/-- Source line `Goal rightGoal(SCREEN_WIDTH - goalWidth, (SCREEN_HEIGHT - goalHeight) / 2, ...)`. -/
def rightGoal : Goal :=
  { x := SCREEN_WIDTH - goalWidth, y := (SCREEN_HEIGHT - goalHeight) / 2,
    w := goalWidth, h := goalHeight, teamId := 2 }

/-! ## Team -/

/-- Class `Team`. The member `activeIndex` holds a roster index and is a `Nat`. -/
structure Team (F : Type) where
  players : List (Player F)
  score : Int
  activeIndex : Nat

/-- Method `Team::deactivateAll`. -/
def Team.deactivateAll (t : Team F) : Team F :=
  { t with players := t.players.map (fun p => { p with active := false }) }

/-- Method `Team::activateNext`. -/
def Team.activateNext (t : Team F) : Team F :=
  let t := t.deactivateAll
  let t := { t with activeIndex := (t.activeIndex + 1) % t.players.length }
  { t with players := t.players.modify (fun p => { p with active := true }) t.activeIndex }

/-- The local `dist` of `checkCollision`, source lines `float dx = p.x - b.x;`,
`float dy = p.y - b.y;` and `float dist = sqrt(dx*dx + dy*dy);`: the distance
between the centres as the `float` operations compute it. The conversion of the
`int` coordinate, each difference, each square, the sum and the square root are
rounded one by one (no fused multiply-add). -/
def collisionDistance (sqrtF : F → F) (p : Player F) (b : Ball F) : F :=
  let dx : F := FloatRounding.round (FloatRounding.round (p.x : F) - b.x)
  let dy : F := FloatRounding.round (FloatRounding.round (p.y : F) - b.y)
  FloatRounding.round
    (sqrtF (FloatRounding.round (FloatRounding.round (dx * dx) + FloatRounding.round (dy * dy))))

/-- Function `checkCollision`: `return dist <= p.radius + b.radius;`, the `int` sum
of the radii converted to `float`. -/
def checkCollision (sqrtF : F → F) (p : Player F) (b : Ball F) : Bool :=
  let dist : F := collisionDistance sqrtF p b
  decide (dist ≤ FloatRounding.round ((p.radius + b.radius : Int) : F))

/-! ## The game loop of `main` -/

/-- The events of `SDL_PollEvent` the loop distinguishes. -/
inductive Event where
  | quit
  | keySpace
  | keyRightBracket
  | other
  deriving DecidableEq, Repr

/-- The entries of the keyboard snapshot `keystate` the loop reads. -/
structure Keys where
  W : Bool
  S : Bool
  A : Bool
  D : Bool
  UP : Bool
  DOWN : Bool
  LEFT : Bool
  RIGHT : Bool
  E : Bool
  RETURN : Bool
  deriving DecidableEq, Repr

/-- What one iteration of the loop reads from outside: the pending events, the
keyboard snapshot, and the values of `SDL_GetTicks()` seen by the team 1 shooting
block, by the team 2 shooting block and by the timer check. -/
structure Input where
  events : List Event
  keys : Keys
  ticksTeam1 : Nat
  ticksTeam2 : Nat
  ticksTimer : Nat

/-- The variables of `main` that live across iterations of the loop. -/
structure MatchState (F : Type) where
  running : Bool
  matchStartTime : Nat
  gameOver : Bool
  team1 : Team F
  team2 : Team F
  ball : Ball F

/-- Dereference of a `Player*` in a state. A reference outside the roster does not
occur (rosters are never resized); it reads a player at the origin. -/
def MatchState.deref (s : MatchState F) (r : PlayerRef) : Player F :=
  match r.team with
  | TeamId.team1 => s.team1.players.getD r.idx (Player.new 0 0)
  | TeamId.team2 => s.team2.players.getD r.idx (Player.new 0 0)

/-- The state of `main` when the loop is entered; `start` is the first
`SDL_GetTicks()`. -/
def MatchState.init (start : Nat) : MatchState F :=
  { running := true
    matchStartTime := toUint32 start
    gameOver := false
    team1 :=
      { players := (([Player.new 150 200, Player.new 100 300, Player.new 150 400] :
          List (Player F))).modify (fun p => { p with active := true }) 0
        score := 0
        activeIndex := 0 }
    team2 :=
      { players := (([Player.new 650 200, Player.new 700 300, Player.new 650 400] :
          List (Player F))).modify (fun p => { p with active := true }) 0
        score := 0
        activeIndex := 0 }
    ball := Ball.new (SCREEN_WIDTH / 2) (SCREEN_HEIGHT / 2) }

/-- One event of the `SDL_PollEvent` loop. -/
def handleEvent (s : MatchState F) (e : Event) : MatchState F :=
  match e with
  | Event.quit => { s with running := false }
  | Event.keySpace => { s with team1 := s.team1.activateNext }
  | Event.keyRightBracket => { s with team2 := s.team2.activateNext }
  | Event.other => s

/-- The `while (SDL_PollEvent(&event))` loop. -/
def pollEvents (s : MatchState F) (events : List Event) : MatchState F :=
  events.foldl handleEvent s

/-- The delta of one axis: `d = 0; if (neg) d -= speed; if (pos) d += speed;`. -/
def axisDelta (neg pos : Bool) : Int :=
  let d : Int := 0
  let d := if neg then d - speed else d
  let d := if pos then d + speed else d
  d

/-- The body of a movement loop for one player: inactive players are skipped, and
an active one moves when the delta is not zero. -/
def movePlayer (sqrtF : F → F) (dx dy : Int) (p : Player F) : Player F :=
  if !p.active then p
  else if dx ≠ 0 ∨ dy ≠ 0 then p.move sqrtF dx dy else p

/-- The movement loop over a roster. -/
def moveTeam (sqrtF : F → F) (dx dy : Int) (t : Team F) : Team F :=
  { t with players := t.players.map (movePlayer sqrtF dx dy) }

/-- The loop of a shooting block run while the charge key is held: each active
player that possesses the ball starts charging unless the ball is charging. -/
def chargeLoop (tid : TeamId) (players : List (Player F)) (now : Nat) (b : Ball F) : Ball F :=
  players.enum.foldl
    (fun b ip =>
      if ip.2.active && decide (b.possessedBy = some ⟨tid, ip.1⟩) && !b.isCharging
      then b.startCharging now else b)
    b

/-- The loop of a shooting block run while the charge key is not held and the ball
is charging and possessed: the active player that possesses the ball shoots. -/
def shootLoop (deref : PlayerRef → Player F) (tid : TeamId) (players : List (Player F))
    (now : Nat) (b : Ball F) : Ball F :=
  players.enum.foldl
    (fun b ip =>
      if ip.2.active && decide (b.possessedBy = some ⟨tid, ip.1⟩)
      then b.shoot deref now else b)
    b

/-- One shooting block (team 1 with key E, team 2 with key Return). -/
def shootingBlock (deref : PlayerRef → Player F) (tid : TeamId) (players : List (Player F))
    (key : Bool) (now : Nat) (b : Ball F) : Ball F :=
  if key then chargeLoop tid players now b
  else if b.isCharging && b.possessedBy.isSome then shootLoop deref tid players now b
  else b

/-- One roster loop of the collision block: attach to the first colliding player
and `break`. -/
def attachFirst (sqrtF : F → F) (tid : TeamId) (players : List (Player F)) (b : Ball F) :
    Ball F :=
  match players.enum.find? (fun ip => checkCollision sqrtF ip.2 b) with
  | some ip => b.attachToPlayer ⟨tid, ip.1⟩
  | none => b

/-- The block `COLLISION BALL - PLAYERS`. -/
def collisionStep (sqrtF : F → F) (s : MatchState F) : MatchState F :=
  if s.ball.possessedBy.isNone then
    let b := attachFirst sqrtF TeamId.team1 s.team1.players s.ball
    let b := if b.possessedBy.isNone then attachFirst sqrtF TeamId.team2 s.team2.players b else b
    { s with ball := b }
  else s

/-- The ball reset of the goal block: centre of the field, at rest, free. -/
def resetBall (b : Ball F) : Ball F :=
  { b with x := ((SCREEN_WIDTH / 2 : Int) : F), y := ((SCREEN_HEIGHT / 2 : Int) : F),
           vx := 0, vy := 0, possessedBy := none, isCharging := false }

/-- The block `GOAL DETECTION`. -/
def goalDetection (s : MatchState F) : MatchState F :=
  if !s.gameOver then
    if leftGoal.checkBallInside s.ball then
      { s with team2 := { s.team2 with score := s.team2.score + 1 }, ball := resetBall s.ball }
    else if rightGoal.checkBallInside s.ball then
      { s with team1 := { s.team1 with score := s.team1.score + 1 }, ball := resetBall s.ball }
    else s
  else s

/-- The block `CHECK TIMER`: the new `gameOver` and the `remainingTime` handed to
`drawNumber`. The difference `MATCH_DURATION - elapsedTime` and the division are
unsigned 32-bit, the result is converted to `int`. -/
def checkTimer (gameOver : Bool) (matchStartTime currentTime : Nat) : Bool × Int :=
  let elapsedTime := subUint32 currentTime matchStartTime
  let remainingTime : Int := uint32ToInt (subUint32 MATCH_DURATION elapsedTime / 1000)
  if elapsedTime ≥ MATCH_DURATION ∧ gameOver = false then (true, 0)
  else (gameOver, remainingTime)

/-- The two movement loops (team 1 with W, A, S, D, team 2 with the arrow keys). -/
def movementStep (sqrtF : F → F) (s : MatchState F) (k : Keys) : MatchState F :=
  let s := { s with team1 := moveTeam sqrtF (axisDelta k.A k.D) (axisDelta k.W k.S) s.team1 }
  { s with team2 := moveTeam sqrtF (axisDelta k.LEFT k.RIGHT) (axisDelta k.UP k.DOWN) s.team2 }

/-- The two shooting blocks, team 1 first. -/
def shootingStep (s : MatchState F) (i : Input) : MatchState F :=
  let s := { s with ball := shootingBlock s.deref TeamId.team1 s.team1.players
                                i.keys.E i.ticksTeam1 s.ball }
  { s with ball := shootingBlock s.deref TeamId.team2 s.team2.players
                      i.keys.RETURN i.ticksTeam2 s.ball }

/-- The block `BALL`: `ball.update(); ball.wallCollision();`. -/
def ballStep (s : MatchState F) : MatchState F :=
  let s := { s with ball := s.ball.update s.deref }
  { s with ball := s.ball.wallCollision }

/-- The part of an iteration before the goal block: events, movement, shooting,
ball motion and attachment. -/
def beforeGoal (sqrtF : F → F) (s : MatchState F) (i : Input) : MatchState F :=
  let s := pollEvents s i.events
  let s := movementStep sqrtF s i.keys
  let s := shootingStep s i
  let s := ballStep s
  collisionStep sqrtF s

/-- One iteration of the game loop: the next state and the `remainingTime` drawn on
the scoreboard. -/
def tick (sqrtF : F → F) (s : MatchState F) (i : Input) : MatchState F × Int :=
  let s := beforeGoal sqrtF s i
  let s := goalDetection s
  let r := checkTimer s.gameOver s.matchStartTime i.ticksTimer
  ({ s with gameOver := r.1 }, r.2)

/-- The states the loop can be in at the top of an iteration. -/
inductive Reachable (sqrtF : F → F) : MatchState F → Prop where
  | init (start : Nat) : Reachable sqrtF (MatchState.init start)
  | step (s : MatchState F) (i : Input) :
      Reachable sqrtF s → Reachable sqrtF (tick sqrtF s i).1

end Core

/-! ## Runs, invariants and specification functions -/

/-- Run the loop over a list of inputs, one iteration for each. -/
def runTicks {F : Type} [LinearOrderedField F] [FloatRounding F] (sqrtF : F → F) (s : MatchState F) :
    List Input → MatchState F
  | [] => s
  | i :: rest => runTicks sqrtF (tick sqrtF s i).1 rest

/-- The parts of the state that only the goal block and the timer block write:
the game-over flag, the start time and the two scores. -/
def MatchState.ledger {F : Type} [LinearOrderedField F] (s : MatchState F) :
    Bool × Nat × Int × Int :=
  (s.gameOver, s.matchStartTime, s.team1.score, s.team2.score)

/-- The invariant of possession: a ball that has a possessor has velocity `(0, 0)`. -/
def Ball.restWhenHeld {F : Type} [LinearOrderedField F] (b : Ball F) : Prop :=
  b.possessedBy ≠ none → b.vx = 0 ∧ b.vy = 0

/-- Exactly one player of the roster has `active = true`, and it is the player at
`activeIndex`. -/
def Team.oneActive {F : Type} [LinearOrderedField F] (t : Team F) : Prop :=
  t.players.countP (fun p => p.active) = 1 ∧
  ∃ p, t.players[t.activeIndex]? = some p ∧ p.active = true

/-- The charge key of a team in a keyboard snapshot: E for team 1, Return for
team 2. -/
def chargeKey (k : Keys) : TeamId → Bool
  | TeamId.team1 => k.E
  | TeamId.team2 => k.RETURN

/-- The remaining time the specification asks for: `max(0, (duration - elapsed) / 1000)`
for an elapsed time in milliseconds. -/
def specRemaining (elapsed : Nat) : Int :=
  max 0 (((MATCH_DURATION : Int) - (elapsed : Int)) / 1000)

/-- The distance between the centres of player `p` and ball `b`, as `checkCollision`
computes it in `float` arithmetic, is at most the `float` 25 (player radius 20 plus
ball radius 5). -/
def touches {F : Type} [LinearOrderedField F] [FloatRounding F] (sqrtF : F → F)
    (p : Player F) (b : Ball F) : Prop :=
  collisionDistance sqrtF p b ≤ FloatRounding.round 25

/-- The state of an iteration after its shooting blocks: events, movement and
shooting have run. -/
def afterShooting {F : Type} [LinearOrderedField F] (sqrtF : F → F) (s : MatchState F)
    (i : Input) : MatchState F :=
  shootingStep (movementStep sqrtF (pollEvents s i.events) i.keys) i

/-- The roster of a team in a state. -/
def MatchState.team {F : Type} [LinearOrderedField F] (s : MatchState F) : TeamId → Team F
  | TeamId.team1 => s.team1
  | TeamId.team2 => s.team2

/-- The player at index `idx` of the roster exists and has `active = true`. -/
def Team.activeAt {F : Type} [LinearOrderedField F] (t : Team F) (idx : Nat) : Bool :=
  match t.players[idx]? with
  | some p => p.active
  | none => false

/-! ## Sample inputs -/

/-- A keyboard snapshot with no key held. -/
def noKeys : Keys :=
  { W := false, S := false, A := false, D := false, UP := false, DOWN := false,
    LEFT := false, RIGHT := false, E := false, RETURN := false }

/-- A keyboard snapshot with only the left arrow held. -/
def leftKeys : Keys :=
  { W := false, S := false, A := false, D := false, UP := false, DOWN := false,
    LEFT := true, RIGHT := false, E := false, RETURN := false }

/-- An input with no event and no key held in which every `SDL_GetTicks()` returns
`now`. -/
def idleInput (now : Nat) : Input :=
  { events := [], keys := noKeys, ticksTeam1 := now, ticksTeam2 := now, ticksTimer := now }

/-- An input with no event and only the Return key held in which every
`SDL_GetTicks()` returns `now`. -/
def returnInput (now : Nat) : Input :=
  { events := [],
    keys := { W := false, S := false, A := false, D := false, UP := false, DOWN := false,
              LEFT := false, RIGHT := false, E := false, RETURN := true },
    ticksTeam1 := now, ticksTeam2 := now, ticksTimer := now }

/-- The input of an iteration with no event and the left arrow held. -/
def leftInput : Input :=
  { events := [], keys := leftKeys, ticksTeam1 := 0, ticksTeam2 := 0, ticksTimer := 0 }

/-- The input of a first iteration that selects the third player of team 2 (two
presses of the right bracket) while the left arrow is held. -/
def selectInput : Input :=
  { events := [Event.keyRightBracket, Event.keyRightBracket], keys := leftKeys,
    ticksTeam1 := 0, ticksTeam2 := 0, ticksTimer := 0 }

/-- The input `leftInput` in the iteration in which the 60 seconds are over. -/
def finalLeftInput : Input :=
  { leftInput with ticksTimer := 60000 }

/-- An input with only Return held, read at time 0 by the shooting blocks, in the
iteration in which the 60 seconds are over. -/
def finalReturnInput : Input :=
  { returnInput 0 with ticksTimer := 60000 }

/-- An input with one press of the right bracket (team 2 selects its next player)
and no key held, every `SDL_GetTicks()` returning 0. -/
def switchInput : Input :=
  { events := [Event.keyRightBracket], keys := noKeys,
    ticksTeam1 := 0, ticksTeam2 := 0, ticksTimer := 0 }

/-! ## Sample states -/

/-- A state with the ball on the corner `(20, 225)` of the left goal, held and
charged by a player at `(20, 255)` who faces up, the score at 2 : 3. -/
def cornerState {F : Type} [LinearOrderedField F] : MatchState F :=
  { running := true
    matchStartTime := 0
    gameOver := false
    team1 :=
      { players := [{ x := 20, y := 255, radius := 20, active := true, dirX := 0, dirY := -1 }]
        score := 2
        activeIndex := 0 }
    team2 := { players := [Player.new 700 300], score := 3, activeIndex := 0 }
    ball := { x := 20, y := 225, vx := 0, vy := 0, radius := 5,
              possessedBy := some ⟨TeamId.team1, 0⟩, isCharging := true,
              chargeStartTime := 10 } }

/-- A state with a free ball flying through the corner `(800, 375)` of the right
goal, the score at 2 : 3. -/
def rightCornerState {F : Type} [LinearOrderedField F] : MatchState F :=
  { (cornerState : MatchState F) with
    ball := { x := 800, y := 375, vx := 12, vy := 9, radius := 5,
              possessedBy := none, isCharging := false, chargeStartTime := 0 } }

/-- The state `cornerState` once the match is over. -/
def cornerStateOver {F : Type} [LinearOrderedField F] : MatchState F :=
  { (cornerState : MatchState F) with gameOver := true }

/-- The state after one idle iteration at the end of the 60 seconds of a match
started at time 0: the iteration in which the match ends. -/
def fullTimeState {F : Type} [LinearOrderedField F] [FloatRounding F] (sqrtF : F → F) : MatchState F :=
  (tick sqrtF (MatchState.init 0) (idleInput 60000)).1

/-- The state after `m` iterations (for `1 ≤ m ≤ 26`) of a match in which the third
player of team 2 is selected at once and runs to the left towards the ball. -/
def cruise {F : Type} [LinearOrderedField F] (m : Nat) : MatchState F :=
  { running := true
    matchStartTime := 0
    gameOver := false
    team1 :=
      { players := [{ x := 150, y := 200, radius := 20, active := true, dirX := 1, dirY := 0 },
                    Player.new 100 300, Player.new 150 400]
        score := 0
        activeIndex := 0 }
    team2 :=
      { players := [Player.new 650 200, Player.new 700 300,
                    { x := 650 - 5 * (m : Int), y := 400, radius := 20, active := true,
                      dirX := -1, dirY := 0 }]
        score := 0
        activeIndex := 2 }
    ball := { x := 400 + 4 * (m : F), y := 300 + 3 * (m : F), vx := 4, vy := 3, radius := 5,
              possessedBy := none, isCharging := false, chargeStartTime := 0 } }

/-- The state after 27 iterations of the match of `cruise`: the player has reached
the ball. -/
def heldState {F : Type} [LinearOrderedField F] [FloatRounding F] (sqrtF : F → F) : MatchState F :=
  runTicks sqrtF (MatchState.init 0) (selectInput :: List.replicate 26 leftInput)

/-- The state `heldState` written out: the running player is at `(515, 400)` and has
just been given the ball, which is still where it was caught. -/
def caughtState {F : Type} [LinearOrderedField F] : MatchState F :=
  { (cruise 27 : MatchState F) with
    ball := { x := 508, y := 381, vx := 0, vy := 0, radius := 5,
              possessedBy := some ⟨TeamId.team2, 2⟩, isCharging := false,
              chargeStartTime := 0 } }

/-- The state `cruise 26` with the match over: the ball is free, one step away from
the running player. -/
def cruiseOver {F : Type} [LinearOrderedField F] : MatchState F :=
  { (cruise 26 : MatchState F) with gameOver := true }

/-- A state with the match over in which the running player, now at `(515, 400)`,
holds the ball; `charging` is the charging flag of the ball. -/
def heldOver {F : Type} [LinearOrderedField F] (charging : Bool) : MatchState F :=
  { (cruise 27 : MatchState F) with
    gameOver := true
    ball := { x := 485, y := 400, vx := 0, vy := 0, radius := 5,
              possessedBy := some ⟨TeamId.team2, 2⟩, isCharging := charging,
              chargeStartTime := 0 } }

/-- A state at the collision block in which a free ball at `(400, 300)` is touched
by the second player of team 1, 20 away, and by the first player of team 2, 5 away. -/
def crowdedState {F : Type} [LinearOrderedField F] : MatchState F :=
  { running := true
    matchStartTime := 0
    gameOver := false
    team1 :=
      { players := [{ x := 150, y := 200, radius := 20, active := true, dirX := 1, dirY := 0 },
                    Player.new 420 300, Player.new 150 400]
        score := 0
        activeIndex := 0 }
    team2 :=
      { players := [{ x := 403, y := 304, radius := 20, active := true, dirX := -1, dirY := 0 },
                    Player.new 700 300, Player.new 650 400]
        score := 0
        activeIndex := 0 }
    ball := { x := 400, y := 300, vx := 4, vy := 3, radius := 5,
              possessedBy := none, isCharging := false, chargeStartTime := 0 } }

/-- The state of the match of `cruise` at the collision block of its 27th iteration:
the free ball has come to `(508, 381)` and the running player to `(515, 400)`. -/
def arrivingState {F : Type} [LinearOrderedField F] : MatchState F :=
  { (cruise 27 : MatchState F) with
    ball := { x := 508, y := 381, vx := 4, vy := 3, radius := 5,
              possessedBy := none, isCharging := false, chargeStartTime := 0 } }

/-- A state of the match of `cruise` in which the running player, the active player
of team 2, holds the ball and charges a shot with Return. -/
def chargingState {F : Type} [LinearOrderedField F] : MatchState F :=
  { (heldOver true : MatchState F) with gameOver := false }

/-- The state `chargingState` after team 2 has selected its next player: the first
player of team 2 is active and the possessor, the third one, is not. -/
def benchedState {F : Type} [LinearOrderedField F] : MatchState F :=
  { (chargingState : MatchState F) with
    team2 :=
      { players := [{ x := 650, y := 200, radius := 20, active := true, dirX := 1, dirY := 0 },
                    Player.new 700 300,
                    { x := 515, y := 400, radius := 20, active := false,
                      dirX := -1, dirY := 0 }]
        score := 0
        activeIndex := 0 } }

/-- A state over `F32` at the collision block: the free ball is at
`(6474663 / 16384, 9929087 / 32768)`, about `(395.18, 303.01)`, both coordinates
`float` values, and the first player of team 1 is at `(420, 300)`, at a distance a
little over 25 (the squared distance is `625 + 22725 / 2 ^ 30`). -/
def thresholdState : MatchState F32 :=
  { running := true
    matchStartTime := 0
    gameOver := false
    team1 :=
      { players := [{ x := 420, y := 300, radius := 20, active := true, dirX := 1, dirY := 0 },
                    Player.new 100 300, Player.new 150 400]
        score := 0
        activeIndex := 0 }
    team2 :=
      { players := [{ x := 650, y := 200, radius := 20, active := true, dirX := 1, dirY := 0 },
                    Player.new 700 300, Player.new 650 400]
        score := 0
        activeIndex := 0 }
    ball := { x := 6474663 / 16384, y := 9929087 / 32768, vx := 4, vy := 3, radius := 5,
              possessedBy := none, isCharging := false, chargeStartTime := 0 } }

/-! # Theorems -/

/-! ## Goal scoring -/

section GoalScoring

variable {F : Type} [LinearOrderedField F]

theorem leftGoal_checkBallInside_iff (b : Ball F) :
    leftGoal.checkBallInside b = true ↔
      (0 ≤ b.x ∧ b.x ≤ 20) ∧ (225 ≤ b.y ∧ b.y ≤ 375) := by
  simp only [Goal.checkBallInside, leftGoal, SCREEN_HEIGHT, goalHeight, goalWidth,
    Bool.and_eq_true, decide_eq_true_eq, ge_iff_le]
  norm_num
  tauto

theorem rightGoal_checkBallInside_iff (b : Ball F) :
    rightGoal.checkBallInside b = true ↔
      (780 ≤ b.x ∧ b.x ≤ 800) ∧ (225 ≤ b.y ∧ b.y ≤ 375) := by
  simp only [Goal.checkBallInside, rightGoal, SCREEN_WIDTH, SCREEN_HEIGHT, goalHeight,
    goalWidth, Bool.and_eq_true, decide_eq_true_eq, ge_iff_le]
  norm_num
  tauto

/-- C1. While the match is not over, the goal-detection step of a tick, for a ball
whose centre is inside or on the boundary of the left goal rectangle
(`0 ≤ x ≤ 20`, `225 ≤ y ≤ 375`), adds exactly 1 to the score of team 2, keeps the
score of team 1, and puts the ball at `(400, 300)` with velocity `(0, 0)`, no
possessor and the charging flag cleared; for a ball in the right goal rectangle
(`780 ≤ x ≤ 800`, `225 ≤ y ≤ 375`) it adds 1 to the score of team 1 only and resets
the ball in the same way. -/
theorem goal_scoring (s : MatchState F) (hover : s.gameOver = false) :
    ((0 ≤ s.ball.x ∧ s.ball.x ≤ 20) ∧ (225 ≤ s.ball.y ∧ s.ball.y ≤ 375) →
      (goalDetection s).team2.score = s.team2.score + 1 ∧
      (goalDetection s).team1.score = s.team1.score ∧
      (goalDetection s).ball.x = 400 ∧ (goalDetection s).ball.y = 300 ∧
      (goalDetection s).ball.vx = 0 ∧ (goalDetection s).ball.vy = 0 ∧
      (goalDetection s).ball.possessedBy = none ∧
      (goalDetection s).ball.isCharging = false) ∧
    ((780 ≤ s.ball.x ∧ s.ball.x ≤ 800) ∧ (225 ≤ s.ball.y ∧ s.ball.y ≤ 375) →
      (goalDetection s).team1.score = s.team1.score + 1 ∧
      (goalDetection s).team2.score = s.team2.score ∧
      (goalDetection s).ball.x = 400 ∧ (goalDetection s).ball.y = 300 ∧
      (goalDetection s).ball.vx = 0 ∧ (goalDetection s).ball.vy = 0 ∧
      (goalDetection s).ball.possessedBy = none ∧
      (goalDetection s).ball.isCharging = false) := by
  constructor
  · intro h
    have hl : leftGoal.checkBallInside s.ball = true :=
      (leftGoal_checkBallInside_iff s.ball).2 h
    simp only [goalDetection, hover, hl, resetBall, SCREEN_WIDTH, SCREEN_HEIGHT]
    norm_num
  · intro h
    have hr : rightGoal.checkBallInside s.ball = true :=
      (rightGoal_checkBallInside_iff s.ball).2 h
    have hl : leftGoal.checkBallInside s.ball = false := by
      rw [Bool.eq_false_iff]
      intro hl
      have hl2 := (leftGoal_checkBallInside_iff s.ball).1 hl
      linarith [hl2.1.2, h.1.1]
    simp only [goalDetection, hover, hl, hr, resetBall, SCREEN_WIDTH, SCREEN_HEIGHT]
    norm_num

/-- Witness of C1: with the score at 2 : 3, a possessed, charging ball on the corner
`(20, 225)` of the left goal gives 2 : 4, a free ball on the corner `(800, 375)` of
the right goal gives 3 : 3, and both balls are reset. -/
theorem goal_scoring_witness :
    ((cornerState : MatchState ℚ).gameOver = false ∧
      ((0 ≤ (cornerState : MatchState ℚ).ball.x ∧ (cornerState : MatchState ℚ).ball.x ≤ 20) ∧
        (225 ≤ (cornerState : MatchState ℚ).ball.y ∧
          (cornerState : MatchState ℚ).ball.y ≤ 375)) ∧
      (goalDetection (cornerState : MatchState ℚ)).team2.score = 4 ∧
      (goalDetection (cornerState : MatchState ℚ)).team1.score = 2 ∧
      (goalDetection (cornerState : MatchState ℚ)).ball.x = 400 ∧
      (goalDetection (cornerState : MatchState ℚ)).ball.y = 300 ∧
      (goalDetection (cornerState : MatchState ℚ)).ball.vx = 0 ∧
      (goalDetection (cornerState : MatchState ℚ)).ball.vy = 0 ∧
      (goalDetection (cornerState : MatchState ℚ)).ball.possessedBy = none ∧
      (goalDetection (cornerState : MatchState ℚ)).ball.isCharging = false) ∧
    ((rightCornerState : MatchState ℚ).gameOver = false ∧
      ((780 ≤ (rightCornerState : MatchState ℚ).ball.x ∧
          (rightCornerState : MatchState ℚ).ball.x ≤ 800) ∧
        (225 ≤ (rightCornerState : MatchState ℚ).ball.y ∧
          (rightCornerState : MatchState ℚ).ball.y ≤ 375)) ∧
      (goalDetection (rightCornerState : MatchState ℚ)).team1.score = 3 ∧
      (goalDetection (rightCornerState : MatchState ℚ)).team2.score = 3 ∧
      (goalDetection (rightCornerState : MatchState ℚ)).ball.x = 400 ∧
      (goalDetection (rightCornerState : MatchState ℚ)).ball.y = 300 ∧
      (goalDetection (rightCornerState : MatchState ℚ)).ball.vx = 0 ∧
      (goalDetection (rightCornerState : MatchState ℚ)).ball.vy = 0 ∧
      (goalDetection (rightCornerState : MatchState ℚ)).ball.possessedBy = none ∧
      (goalDetection (rightCornerState : MatchState ℚ)).ball.isCharging = false) := by
  have hl : (0 ≤ (cornerState : MatchState ℚ).ball.x ∧
      (cornerState : MatchState ℚ).ball.x ≤ 20) ∧
      (225 ≤ (cornerState : MatchState ℚ).ball.y ∧
        (cornerState : MatchState ℚ).ball.y ≤ 375) := by
    simp only [cornerState]
    norm_num
  have hr : (780 ≤ (rightCornerState : MatchState ℚ).ball.x ∧
      (rightCornerState : MatchState ℚ).ball.x ≤ 800) ∧
      (225 ≤ (rightCornerState : MatchState ℚ).ball.y ∧
        (rightCornerState : MatchState ℚ).ball.y ≤ 375) := by
    simp only [rightCornerState]
    norm_num
  exact ⟨⟨rfl, hl, (goal_scoring cornerState rfl).1 hl⟩,
    ⟨rfl, hr, (goal_scoring rightCornerState rfl).2 hr⟩⟩

end GoalScoring

/-! ## Possession implies zero velocity -/

section Possession

variable {F : Type} [LinearOrderedField F] [FloatRounding F]

/-- A fold keeps a property that every step keeps. -/
theorem foldl_preserves {α β : Type} (P : β → Prop) (f : β → α → β)
    (hf : ∀ b a, P b → P (f b a)) (l : List α) (b : β) (hb : P b) : P (l.foldl f b) := by
  induction l generalizing b with
  | nil => exact hb
  | cons a l ih => exact ih (f b a) (hf b a hb)

theorem startCharging_possessedBy (b : Ball F) (now : Nat) :
    (b.startCharging now).possessedBy = b.possessedBy := by
  unfold Ball.startCharging
  split <;> rfl

theorem startCharging_vx (b : Ball F) (now : Nat) : (b.startCharging now).vx = b.vx := by
  unfold Ball.startCharging
  split <;> rfl

theorem startCharging_vy (b : Ball F) (now : Nat) : (b.startCharging now).vy = b.vy := by
  unfold Ball.startCharging
  split <;> rfl

theorem shoot_possessedBy (deref : PlayerRef → Player F) (b : Ball F) (now : Nat) :
    (b.shoot deref now).possessedBy = none := by
  unfold Ball.shoot
  split
  · assumption
  · rfl

theorem update_possessedBy (deref : PlayerRef → Player F) (b : Ball F) :
    (b.update deref).possessedBy = b.possessedBy := by
  unfold Ball.update
  split <;> rfl

theorem update_vx (deref : PlayerRef → Player F) (b : Ball F) :
    (b.update deref).vx = b.vx := by
  unfold Ball.update
  split <;> rfl

theorem update_vy (deref : PlayerRef → Player F) (b : Ball F) :
    (b.update deref).vy = b.vy := by
  unfold Ball.update
  split <;> rfl

theorem wallCollision_possessedBy (b : Ball F) :
    b.wallCollision.possessedBy = b.possessedBy := by
  unfold Ball.wallCollision
  split
  · rfl
  · dsimp only
    split_ifs <;> rfl

theorem wallCollision_of_possessed (b : Ball F) (h : b.possessedBy ≠ none) :
    b.wallCollision = b := by
  unfold Ball.wallCollision
  split
  · rfl
  · contradiction

theorem chargeLoop_restWhenHeld (tid : TeamId) (players : List (Player F)) (now : Nat)
    (b : Ball F) (hb : b.restWhenHeld) : (chargeLoop tid players now b).restWhenHeld := by
  unfold chargeLoop
  refine foldl_preserves Ball.restWhenHeld _ ?_ _ b hb
  intro b ip hb
  dsimp only
  split_ifs
  · intro h
    rw [startCharging_possessedBy] at h
    rw [startCharging_vx, startCharging_vy]
    exact hb h
  · exact hb

theorem shootLoop_restWhenHeld (deref : PlayerRef → Player F) (tid : TeamId)
    (players : List (Player F)) (now : Nat) (b : Ball F) (hb : b.restWhenHeld) :
    (shootLoop deref tid players now b).restWhenHeld := by
  unfold shootLoop
  refine foldl_preserves Ball.restWhenHeld _ ?_ _ b hb
  intro b ip hb
  dsimp only
  split_ifs
  · intro h
    exact absurd (shoot_possessedBy deref b now) h
  · exact hb

theorem shootingBlock_restWhenHeld (deref : PlayerRef → Player F) (tid : TeamId)
    (players : List (Player F)) (key : Bool) (now : Nat) (b : Ball F)
    (hb : b.restWhenHeld) : (shootingBlock deref tid players key now b).restWhenHeld := by
  unfold shootingBlock
  split_ifs
  · exact chargeLoop_restWhenHeld tid players now b hb
  · exact shootLoop_restWhenHeld deref tid players now b hb
  · exact hb

theorem update_restWhenHeld (deref : PlayerRef → Player F) (b : Ball F)
    (hb : b.restWhenHeld) : (b.update deref).restWhenHeld := by
  intro h
  rw [update_possessedBy] at h
  rw [update_vx, update_vy]
  exact hb h

theorem wallCollision_restWhenHeld (b : Ball F) (hb : b.restWhenHeld) :
    b.wallCollision.restWhenHeld := by
  intro h
  rw [wallCollision_possessedBy] at h
  rw [wallCollision_of_possessed b h]
  exact hb h

theorem attachToPlayer_restWhenHeld (b : Ball F) (r : PlayerRef) :
    (b.attachToPlayer r).restWhenHeld := fun _ => ⟨rfl, rfl⟩

theorem attachFirst_restWhenHeld (sqrtF : F → F) (tid : TeamId) (players : List (Player F))
    (b : Ball F) (hb : b.restWhenHeld) : (attachFirst sqrtF tid players b).restWhenHeld := by
  unfold attachFirst
  split
  · exact attachToPlayer_restWhenHeld b _
  · exact hb

theorem collisionStep_restWhenHeld (sqrtF : F → F) (s : MatchState F)
    (hb : s.ball.restWhenHeld) : (collisionStep sqrtF s).ball.restWhenHeld := by
  unfold collisionStep
  by_cases h : s.ball.possessedBy.isNone = true
  · rw [if_pos h]
    dsimp only
    split_ifs
    · exact attachFirst_restWhenHeld sqrtF _ _ _ (attachFirst_restWhenHeld sqrtF _ _ _ hb)
    · exact attachFirst_restWhenHeld sqrtF _ _ _ hb
  · rw [if_neg h]
    exact hb

theorem handleEvent_ball (s : MatchState F) (e : Event) : (handleEvent s e).ball = s.ball := by
  cases e <;> rfl

theorem pollEvents_ball (s : MatchState F) (events : List Event) :
    (pollEvents s events).ball = s.ball := by
  unfold pollEvents
  induction events generalizing s with
  | nil => rfl
  | cons e l ih => rw [List.foldl_cons, ih, handleEvent_ball]

theorem movementStep_ball (sqrtF : F → F) (s : MatchState F) (k : Keys) :
    (movementStep sqrtF s k).ball = s.ball := rfl

theorem shootingStep_restWhenHeld (s : MatchState F) (i : Input)
    (hb : s.ball.restWhenHeld) : (shootingStep s i).ball.restWhenHeld := by
  unfold shootingStep
  dsimp only
  apply shootingBlock_restWhenHeld
  apply shootingBlock_restWhenHeld
  exact hb

theorem ballStep_restWhenHeld (s : MatchState F) (hb : s.ball.restWhenHeld) :
    (ballStep s).ball.restWhenHeld := by
  unfold ballStep
  dsimp only
  apply wallCollision_restWhenHeld
  apply update_restWhenHeld
  exact hb

theorem beforeGoal_restWhenHeld (sqrtF : F → F) (s : MatchState F) (i : Input)
    (hb : s.ball.restWhenHeld) : (beforeGoal sqrtF s i).ball.restWhenHeld := by
  unfold beforeGoal
  dsimp only
  apply collisionStep_restWhenHeld
  apply ballStep_restWhenHeld
  apply shootingStep_restWhenHeld
  rw [movementStep_ball, pollEvents_ball]
  exact hb

theorem resetBall_restWhenHeld (b : Ball F) : (resetBall b).restWhenHeld :=
  fun _ => ⟨rfl, rfl⟩

theorem goalDetection_restWhenHeld (s : MatchState F) (hb : s.ball.restWhenHeld) :
    (goalDetection s).ball.restWhenHeld := by
  unfold goalDetection
  split_ifs
  · exact resetBall_restWhenHeld _
  · exact resetBall_restWhenHeld _
  · exact hb
  · exact hb

theorem tick_restWhenHeld (sqrtF : F → F) (s : MatchState F) (i : Input)
    (hb : s.ball.restWhenHeld) : (tick sqrtF s i).1.ball.restWhenHeld := by
  unfold tick
  dsimp only
  exact goalDetection_restWhenHeld _ (beforeGoal_restWhenHeld sqrtF s i hb)

theorem init_restWhenHeld (start : Nat) :
    (MatchState.init start : MatchState F).ball.restWhenHeld := by
  intro h
  exact absurd rfl h

theorem reachable_restWhenHeld (sqrtF : F → F) (s : MatchState F)
    (h : Reachable sqrtF s) : s.ball.restWhenHeld := by
  induction h with
  | init start => exact init_restWhenHeld start
  | step s i _ ih => exact tick_restWhenHeld sqrtF s i ih


/-- Over the reals the collision test compares squared distances. -/
theorem checkCollision_real (p : Player ℝ) (b : Ball ℝ) (h : 0 ≤ p.radius + b.radius) :
    checkCollision Real.sqrt p b =
      decide (((p.x : ℝ) - b.x) * ((p.x : ℝ) - b.x) + ((p.y : ℝ) - b.y) * ((p.y : ℝ) - b.y)
        ≤ ((p.radius + b.radius : Int) : ℝ) ^ 2) := by
  unfold checkCollision collisionDistance
  simp only [FloatRounding.round]
  congr 1
  rw [Real.sqrt_le_iff]
  have h2 : (0 : ℝ) ≤ ((p.radius + b.radius : Int) : ℝ) := by exact_mod_cast h
  exact propext ⟨fun h => h.2, fun h => ⟨h2, h⟩⟩

theorem sqrt_25 : Real.sqrt 25 = 5 := by
  rw [show (25 : ℝ) = 5 ^ 2 by norm_num]
  exact Real.sqrt_sq (by norm_num)

theorem runTicks_nil (sqrtF : F → F) (s : MatchState F) : runTicks sqrtF s [] = s := rfl

theorem runTicks_cons (sqrtF : F → F) (s : MatchState F) (i : Input) (rest : List Input) :
    runTicks sqrtF s (i :: rest) = runTicks sqrtF (tick sqrtF s i).1 rest := rfl

theorem runTicks_append (sqrtF : F → F) (s : MatchState F) (l1 l2 : List Input) :
    runTicks sqrtF s (l1 ++ l2) = runTicks sqrtF (runTicks sqrtF s l1) l2 := by
  induction l1 generalizing s with
  | nil => rfl
  | cons i l ih => rw [List.cons_append, runTicks_cons, runTicks_cons, ih]

theorem runTicks_reachable (sqrtF : F → F) (s : MatchState F) (l : List Input)
    (h : Reachable sqrtF s) : Reachable sqrtF (runTicks sqrtF s l) := by
  induction l generalizing s with
  | nil => exact h
  | cons i l ih =>
    rw [runTicks_cons]
    exact ih _ (Reachable.step s i h)

theorem tick_init_select :
    (tick Real.sqrt (MatchState.init 0) selectInput).1 = cruise 1 := by
  norm_num [tick, beforeGoal, cruise, MatchState.init, selectInput, pollEvents, handleEvent,
    Team.activateNext, Team.deactivateAll, movementStep, moveTeam, movePlayer, leftKeys,
    axisDelta, speed, Player.move, Player.updateDirection, wrapInt32, Player.new, shootingStep,
    shootingBlock, chargeLoop, shootLoop, ballStep, Ball.update, Ball.wallCollision, Ball.new,
    collisionStep, attachFirst, checkCollision_real, goalDetection, checkTimer, SCREEN_WIDTH,
    SCREEN_HEIGHT, List.modify, List.enum, List.enumFrom, Goal.checkBallInside, leftGoal,
    rightGoal, goalWidth, goalHeight, subUint32, toUint32, UINT32_SIZE, MATCH_DURATION, sqrt_25]

set_option maxHeartbeats 4000000 in
theorem tick_cruise (m : Nat) (h1 : 1 ≤ m) (h2 : m ≤ 25) :
    (tick Real.sqrt (cruise m) leftInput).1 = cruise (m + 1) := by
  interval_cases m <;>
  norm_num [tick, beforeGoal, cruise, leftInput, pollEvents, handleEvent, movementStep,
    moveTeam, movePlayer, leftKeys, axisDelta, speed, Player.move, Player.updateDirection, wrapInt32,
    Player.new, shootingStep, shootingBlock, chargeLoop, shootLoop, ballStep, Ball.update,
    Ball.wallCollision, Ball.new, collisionStep, attachFirst, checkCollision_real,
    goalDetection, checkTimer, SCREEN_WIDTH, SCREEN_HEIGHT, List.enum, List.enumFrom,
    Goal.checkBallInside, leftGoal, rightGoal, goalWidth, goalHeight, subUint32, toUint32,
    MATCH_DURATION, sqrt_25]

theorem tick_cruise_caught : (tick Real.sqrt (cruise 26) leftInput).1 = caughtState := by
  norm_num [tick, beforeGoal, cruise, caughtState, leftInput, pollEvents, handleEvent,
    movementStep, moveTeam, movePlayer, leftKeys, axisDelta, speed, Player.move,
    Player.updateDirection, wrapInt32, Player.new, shootingStep, shootingBlock, chargeLoop, shootLoop,
    ballStep, Ball.update, Ball.wallCollision, Ball.new, collisionStep, attachFirst,
    checkCollision_real, goalDetection, checkTimer, SCREEN_WIDTH, SCREEN_HEIGHT, List.enum,
    List.enumFrom, Goal.checkBallInside, leftGoal, rightGoal, goalWidth, goalHeight,
    subUint32, toUint32, UINT32_SIZE, MATCH_DURATION, sqrt_25, Ball.attachToPlayer, resetBall]

theorem tick_cruise_last :
    (tick Real.sqrt (cruise 26) leftInput).1.ball.possessedBy = some ⟨TeamId.team2, 2⟩ := by
  rw [tick_cruise_caught]
  rfl

theorem runTicks_cruise (k m : Nat) (h1 : 1 ≤ m) (h2 : m + k ≤ 26) :
    runTicks Real.sqrt (cruise m) (List.replicate k leftInput) = cruise (m + k) := by
  induction k generalizing m with
  | zero => rfl
  | succ k ih =>
    rw [List.replicate_succ, runTicks_cons, tick_cruise m h1 (by omega),
      ih (m + 1) (by omega) (by omega), Nat.add_assoc, Nat.add_comm 1 k]

theorem heldState_eq :
    heldState Real.sqrt = (tick Real.sqrt (cruise 26) leftInput).1 := by
  unfold heldState
  rw [runTicks_cons, tick_init_select, show (26 : Nat) = 25 + 1 from rfl,
    List.replicate_succ', runTicks_append, runTicks_cruise 25 1 (le_refl 1) (le_refl 26),
    runTicks_cons, runTicks_nil]

theorem heldState_reachable : Reachable Real.sqrt (heldState Real.sqrt) :=
  runTicks_reachable Real.sqrt _ _ (Reachable.init 0)

theorem cruise_reachable (m : Nat) (h1 : 1 ≤ m) (h2 : m ≤ 26) :
    Reachable Real.sqrt (cruise m) := by
  have h := runTicks_reachable Real.sqrt (cruise 1) (List.replicate (m - 1) leftInput)
    (by rw [← tick_init_select]; exact Reachable.step _ _ (Reachable.init 0))
  rw [runTicks_cruise (m - 1) 1 (le_refl 1) (by omega)] at h
  rwa [show 1 + (m - 1) = m by omega] at h

theorem caughtState_reachable : Reachable Real.sqrt caughtState := by
  rw [← tick_cruise_caught]
  exact Reachable.step _ _ (cruise_reachable 26 (by decide) (le_refl 26))

theorem heldState_possessedBy :
    (heldState Real.sqrt).ball.possessedBy = some ⟨TeamId.team2, 2⟩ := by
  rw [heldState_eq]
  exact tick_cruise_last

/-- C2. In every state reachable from the initial match state by any sequence of
ticks with any inputs, a ball that has a possessor has velocity exactly `(0, 0)`:
`attachToPlayer` sets the velocity to zero, `update`, `wallCollision` and
`startCharging` keep the possessor and the velocity of a possessed ball, and
`shoot` and the goal reset clear the possessor. -/
theorem possession_zero_velocity (sqrtF : F → F) :
    (∀ s : MatchState F, Reachable sqrtF s → s.ball.possessedBy ≠ none →
      s.ball.vx = 0 ∧ s.ball.vy = 0) ∧
    (MatchState.init 0 : MatchState F).ball.possessedBy = none ∧
    (∀ (b : Ball F) (r : PlayerRef),
      (b.attachToPlayer r).possessedBy = some r ∧
      (b.attachToPlayer r).vx = 0 ∧ (b.attachToPlayer r).vy = 0) ∧
    (∀ (deref : PlayerRef → Player F) (b : Ball F), b.possessedBy ≠ none →
      (b.update deref).possessedBy = b.possessedBy ∧
      (b.update deref).vx = b.vx ∧ (b.update deref).vy = b.vy) ∧
    (∀ b : Ball F, b.possessedBy ≠ none →
      b.wallCollision.possessedBy = b.possessedBy ∧
      b.wallCollision.vx = b.vx ∧ b.wallCollision.vy = b.vy) ∧
    (∀ (b : Ball F) (now : Nat), b.possessedBy ≠ none →
      (b.startCharging now).possessedBy = b.possessedBy ∧
      (b.startCharging now).vx = b.vx ∧ (b.startCharging now).vy = b.vy) ∧
    (∀ (deref : PlayerRef → Player F) (b : Ball F) (now : Nat),
      (b.shoot deref now).possessedBy = none) ∧
    (∀ b : Ball F, (resetBall b).possessedBy = none) := by
  refine ⟨fun s hs hp => reachable_restWhenHeld sqrtF s hs hp, rfl, fun b r => ⟨rfl, rfl, rfl⟩,
    fun deref b _ => ⟨update_possessedBy deref b, update_vx deref b, update_vy deref b⟩,
    fun b hp => ?_,
    fun b now _ => ⟨startCharging_possessedBy b now, startCharging_vx b now,
      startCharging_vy b now⟩,
    fun deref b now => shoot_possessedBy deref b now, fun b => rfl⟩
  rw [wallCollision_of_possessed b hp]
  exact ⟨rfl, rfl, rfl⟩

/-- Witness of C2: after 27 ticks of a match in which the third player of team 2
runs to the left, the ball is possessed by that player and is at rest, and the
ball methods keep it so. -/
theorem possession_zero_velocity_witness :
    Reachable Real.sqrt (heldState Real.sqrt) ∧
    (heldState Real.sqrt).ball.possessedBy ≠ none ∧
    ((heldState Real.sqrt).ball.vx = 0 ∧ (heldState Real.sqrt).ball.vy = 0) ∧
    (((heldState Real.sqrt).ball.update (heldState Real.sqrt).deref).vx = 0 ∧
      (heldState Real.sqrt).ball.wallCollision.vx = 0 ∧
      ((heldState Real.sqrt).ball.startCharging 5).vx = 0) := by
  have hp : (heldState Real.sqrt).ball.possessedBy ≠ none := by
    rw [heldState_possessedBy]
    exact Option.some_ne_none _
  have h := possession_zero_velocity Real.sqrt
  have hv := h.1 (heldState Real.sqrt) heldState_reachable hp
  refine ⟨heldState_reachable, hp, hv, ?_, ?_, ?_⟩
  · rw [(h.2.2.2.1 (heldState Real.sqrt).deref _ hp).2.1]
    exact hv.1
  · rw [(h.2.2.2.2.1 _ hp).2.1]
    exact hv.1
  · rw [(h.2.2.2.2.2.1 _ 5 hp).2.1]
    exact hv.1

end Possession

/-! ## Shot speed -/

section ShotSpeed

variable {F : Type} [LinearOrderedField F]

theorem chargePower_mono (d1 d2 : Nat) (h : d1 ≤ d2) :
    (chargePower d1 : F) ≤ chargePower d2 := by
  unfold chargePower MAX_CHARGE_TIME
  apply min_le_min (le_refl 1)
  apply div_le_div_of_nonneg_right
  · exact_mod_cast h
  · norm_num

theorem chargePower_nonneg (d : Nat) : (0 : F) ≤ chargePower d := by
  unfold chargePower MAX_CHARGE_TIME
  apply le_min
  · norm_num
  · positivity

theorem chargePower_le_one (d : Nat) : (chargePower d : F) ≤ 1 := by
  unfold chargePower
  exact min_le_left _ _

theorem chargePower_full (d : Nat) (h : 2000 ≤ d) : (chargePower d : F) = 1 := by
  unfold chargePower MAX_CHARGE_TIME
  apply min_eq_left
  rw [le_div_iff₀ (by norm_num)]
  have : ((2000 : Nat) : F) ≤ (d : F) := by exact_mod_cast h
  simpa using this

/-- C3. The shot speed for a charge duration of `d` milliseconds (in `shoot`, the
unsigned 32-bit difference between `SDL_GetTicks()` and `chargeStartTime`) is
`5 + 15 * min(1, d / 2000)`; it is monotone in `d`, lies between 5 and 20, and is
exactly 20 for every `d ≥ 2000`. -/
theorem shot_speed :
    (∀ d : Nat, (shotPower d : F) = 5 + 15 * min 1 ((d : F) / 2000)) ∧
    (∀ d1 d2 : Nat, d1 ≤ d2 → (shotPower d1 : F) ≤ shotPower d2) ∧
    (∀ d : Nat, (5 : F) ≤ shotPower d ∧ (shotPower d : F) ≤ 20) ∧
    (∀ d : Nat, 2000 ≤ d → (shotPower d : F) = 20) ∧
    (∀ (deref : PlayerRef → Player F) (b : Ball F) (now : Nat) (r : PlayerRef),
      b.possessedBy = some r →
      (b.shoot deref now).vx = (deref r).dirX * shotPower (subUint32 now b.chargeStartTime) ∧
      (b.shoot deref now).vy = (deref r).dirY * shotPower (subUint32 now b.chargeStartTime)) := by
  refine ⟨?_, ?_, ?_, ?_, ?_⟩
  · intro d
    simp only [shotPower, chargePower, MIN_SHOT_POWER, MAX_SHOT_POWER, MAX_CHARGE_TIME]
    norm_num
  · intro d1 d2 h
    have hc : (chargePower d1 : F) ≤ chargePower d2 := chargePower_mono d1 d2 h
    simp only [shotPower, MIN_SHOT_POWER, MAX_SHOT_POWER]
    linarith
  · intro d
    have h0 : (0 : F) ≤ chargePower d := chargePower_nonneg d
    have h1 : (chargePower d : F) ≤ 1 := chargePower_le_one d
    simp only [shotPower, MIN_SHOT_POWER, MAX_SHOT_POWER]
    constructor <;> linarith
  · intro d h
    simp only [shotPower, MIN_SHOT_POWER, MAX_SHOT_POWER, chargePower_full d h]
    norm_num
  · intro deref b now r h
    simp only [Ball.shoot, h]
    exact ⟨trivial, trivial⟩

/-- Witness of C3: over the rationals, a charge of 500 ms gives less speed than one
of 2000 ms, which gives 20, as does a release with a wrapped 32-bit clock; the
possessed ball of the sample state leaves the shot at speed 20. -/
theorem shot_speed_witness :
    (500 ≤ 2000) ∧ (2000 ≤ 2000) ∧
    (cornerState : MatchState ℚ).ball.possessedBy = some ⟨TeamId.team1, 0⟩ ∧
    (shotPower 500 : ℚ) ≤ shotPower 2000 ∧
    (shotPower 2000 : ℚ) = 20 ∧
    ((cornerState : MatchState ℚ).ball.shoot (cornerState : MatchState ℚ).deref 2010).vx =
      ((cornerState : MatchState ℚ).deref ⟨TeamId.team1, 0⟩).dirX *
        shotPower (subUint32 2010 (cornerState : MatchState ℚ).ball.chargeStartTime) :=
  ⟨by decide, by decide, rfl,
    (shot_speed).2.1 500 2000 (by decide),
    (shot_speed).2.2.2.1 2000 (le_refl 2000),
    ((shot_speed).2.2.2.2 (cornerState : MatchState ℚ).deref (cornerState : MatchState ℚ).ball 2010 ⟨TeamId.team1, 0⟩ rfl).1⟩

end ShotSpeed

/-! ## Player movement -/

section Movement

variable {F : Type} [LinearOrderedField F]

theorem updateDirection_x (sqrtF : F → F) (p : Player F) (dx dy : Int) :
    (p.updateDirection sqrtF dx dy).x = p.x := by
  unfold Player.updateDirection
  split_ifs <;> rfl

theorem updateDirection_y (sqrtF : F → F) (p : Player F) (dx dy : Int) :
    (p.updateDirection sqrtF dx dy).y = p.y := by
  unfold Player.updateDirection
  split_ifs <;> rfl

theorem updateDirection_radius (sqrtF : F → F) (p : Player F) (dx dy : Int) :
    (p.updateDirection sqrtF dx dy).radius = p.radius := by
  unfold Player.updateDirection
  split_ifs <;> rfl

/-- C4. For a player of radius 20 at any integer position and any integer delta
whose addition does not overflow a 32-bit `int`, the position after `move` has
`radius ≤ x ≤ 800 - radius` and `radius ≤ y ≤ 600 - radius`, and when the translated
position is already in that range the new position is exactly the translated one. -/
theorem move_clamps (sqrtF : F → F) (p : Player F) (dx dy : Int) (hr : p.radius = 20)
    (hx : -2 ^ 31 ≤ p.x + dx ∧ p.x + dx < 2 ^ 31)
    (hy : -2 ^ 31 ≤ p.y + dy ∧ p.y + dy < 2 ^ 31) :
    (p.radius ≤ (p.move sqrtF dx dy).x ∧ (p.move sqrtF dx dy).x ≤ SCREEN_WIDTH - p.radius ∧
      p.radius ≤ (p.move sqrtF dx dy).y ∧ (p.move sqrtF dx dy).y ≤ SCREEN_HEIGHT - p.radius) ∧
    ((p.radius ≤ p.x + dx ∧ p.x + dx ≤ SCREEN_WIDTH - p.radius ∧
        p.radius ≤ p.y + dy ∧ p.y + dy ≤ SCREEN_HEIGHT - p.radius) →
      (p.move sqrtF dx dy).x = p.x + dx ∧ (p.move sqrtF dx dy).y = p.y + dy) := by
  have h1 := updateDirection_x sqrtF p dx dy
  have h2 := updateDirection_y sqrtF p dx dy
  have h3 := updateDirection_radius sqrtF p dx dy
  unfold Player.move
  generalize p.updateDirection sqrtF dx dy = q at h1 h2 h3 ⊢
  obtain ⟨qx, qy, qr, qa, qdx, qdy⟩ := q
  dsimp only at h1 h2 h3 ⊢
  subst h1 h2
  rw [hr] at h3
  subst h3
  rw [hr]
  simp only [SCREEN_WIDTH, SCREEN_HEIGHT]
  constructor
  · split_ifs <;> (try dsimp only at *) <;> omega
  · intro h
    split_ifs <;> (try dsimp only at *) <;> omega

/-- Witness of C4: a player at `(22, 578)` moved by `(-5, 5)` stays inside the
bounds, and a player at `(150, 200)` moved by `(5, 0)` is at `(155, 200)`. -/
theorem move_clamps_witness :
    (Player.new 22 578 : Player ℝ).radius = 20 ∧
    (20 ≤ ((Player.new 22 578 : Player ℝ).move Real.sqrt (-5) 5).x ∧
      ((Player.new 22 578 : Player ℝ).move Real.sqrt (-5) 5).y ≤ 580) ∧
    (((Player.new 150 200 : Player ℝ).move Real.sqrt 5 0).x = 155 ∧
      ((Player.new 150 200 : Player ℝ).move Real.sqrt 5 0).y = 200) :=
  ⟨rfl,
    ⟨(move_clamps Real.sqrt (Player.new 22 578) (-5) 5 rfl (by decide) (by decide)).1.1,
      (move_clamps Real.sqrt (Player.new 22 578) (-5) 5 rfl (by decide) (by decide)).1.2.2.2⟩,
    (move_clamps Real.sqrt (Player.new 150 200) 5 0 rfl (by decide) (by decide)).2
      (by decide)⟩

theorem move_dirX (sqrtF : F → F) (p : Player F) (dx dy : Int) :
    (p.move sqrtF dx dy).dirX = (p.updateDirection sqrtF dx dy).dirX := by
  unfold Player.move
  dsimp only
  split_ifs <;> rfl

theorem move_dirY (sqrtF : F → F) (p : Player F) (dx dy : Int) :
    (p.move sqrtF dx dy).dirY = (p.updateDirection sqrtF dx dy).dirY := by
  unfold Player.move
  dsimp only
  split_ifs <;> rfl

theorem sq_sum_pos (dx dy : Int) (h : dx ≠ 0 ∨ dy ≠ 0) :
    (0 : ℝ) < (dx : ℝ) ^ 2 + (dy : ℝ) ^ 2 := by
  rcases h with h | h
  · have : (dx : ℝ) ≠ 0 := by exact_mod_cast h
    positivity
  · have : (dy : ℝ) ≠ 0 := by exact_mod_cast h
    positivity

/-- The 32-bit computation of `dx*dx + dy*dy` gives the sum of squares when that
sum fits a 32-bit `int`. -/
theorem wrapInt32_sq_sum (dx dy : Int) (h : dx * dx + dy * dy ≤ 2147483647) :
    wrapInt32 (wrapInt32 (dx * dx) + wrapInt32 (dy * dy)) = dx * dx + dy * dy := by
  have hx : 0 ≤ dx * dx := mul_self_nonneg dx
  have hy : 0 ≤ dy * dy := mul_self_nonneg dy
  have h1 : wrapInt32 (dx * dx) = dx * dx := by
    unfold wrapInt32
    omega
  have h2 : wrapInt32 (dy * dy) = dy * dy := by
    unfold wrapInt32
    omega
  rw [h1, h2]
  unfold wrapInt32
  omega

/-- C5 as amended. Over exact real arithmetic, for every player and every nonzero
integer delta `(dx, dy)` whose sum of squares `dx*dx + dy*dy` fits a 32-bit `int`
(is at most 2147483647), the facing direction after `move` is
`(dx, dy) / sqrt(dx ^ 2 + dy ^ 2)`: a vector of length 1 that is a positive multiple
of the delta, whether or not clamping lets the player move; for the zero delta the
facing direction is unchanged; and a player at `(150, 200)` moved by `(5, 0)` ends
at `(155, 200)` facing `(1, 0)`. -/
theorem move_facing (p : Player ℝ) (dx dy : Int) :
    (dx ≠ 0 ∨ dy ≠ 0 → dx * dx + dy * dy ≤ 2147483647 →
      (p.move Real.sqrt dx dy).dirX = (dx : ℝ) / Real.sqrt ((dx : ℝ) ^ 2 + (dy : ℝ) ^ 2) ∧
      (p.move Real.sqrt dx dy).dirY = (dy : ℝ) / Real.sqrt ((dx : ℝ) ^ 2 + (dy : ℝ) ^ 2) ∧
      (p.move Real.sqrt dx dy).dirX ^ 2 + (p.move Real.sqrt dx dy).dirY ^ 2 = 1 ∧
      ∃ k : ℝ, 0 < k ∧ (p.move Real.sqrt dx dy).dirX = k * (dx : ℝ) ∧
        (p.move Real.sqrt dx dy).dirY = k * (dy : ℝ)) ∧
    ((p.move Real.sqrt 0 0).dirX = p.dirX ∧ (p.move Real.sqrt 0 0).dirY = p.dirY) ∧
    (((Player.new 150 200 : Player ℝ).move Real.sqrt 5 0).x = 155 ∧
      ((Player.new 150 200 : Player ℝ).move Real.sqrt 5 0).y = 200 ∧
      ((Player.new 150 200 : Player ℝ).move Real.sqrt 5 0).dirX = 1 ∧
      ((Player.new 150 200 : Player ℝ).move Real.sqrt 5 0).dirY = 0) := by
  refine ⟨?_, ?_, ?_⟩
  · intro h hfit
    have hpos := sq_sum_pos dx dy h
    have hlen : 0 < Real.sqrt ((dx : ℝ) ^ 2 + (dy : ℝ) ^ 2) := Real.sqrt_pos.2 hpos
    have hsq : Real.sqrt ((dx : ℝ) ^ 2 + (dy : ℝ) ^ 2) ^ 2 = (dx : ℝ) ^ 2 + (dy : ℝ) ^ 2 :=
      Real.sq_sqrt hpos.le
    have hcast : ((wrapInt32 (wrapInt32 (dx * dx) + wrapInt32 (dy * dy)) : Int) : ℝ) =
        (dx : ℝ) ^ 2 + (dy : ℝ) ^ 2 := by
      rw [wrapInt32_sq_sum dx dy hfit]
      push_cast
      ring
    have hX : (p.move Real.sqrt dx dy).dirX =
        (dx : ℝ) / Real.sqrt ((dx : ℝ) ^ 2 + (dy : ℝ) ^ 2) := by
      rw [move_dirX, Player.updateDirection, if_pos h, hcast]
    have hY : (p.move Real.sqrt dx dy).dirY =
        (dy : ℝ) / Real.sqrt ((dx : ℝ) ^ 2 + (dy : ℝ) ^ 2) := by
      rw [move_dirY, Player.updateDirection, if_pos h, hcast]
    refine ⟨hX, hY, ?_, 1 / Real.sqrt ((dx : ℝ) ^ 2 + (dy : ℝ) ^ 2), by positivity, ?_, ?_⟩
    · rw [hX, hY, div_pow, div_pow, ← add_div, hsq]
      exact div_self hpos.ne'
    · rw [hX]
      ring
    · rw [hY]
      ring
  · rw [move_dirX, move_dirY]
    simp [Player.updateDirection]
  · refine ⟨?_, ?_, ?_, ?_⟩
    · simp [Player.move, Player.updateDirection, Player.new, SCREEN_WIDTH, SCREEN_HEIGHT]
    · simp [Player.move, Player.updateDirection, Player.new, SCREEN_WIDTH, SCREEN_HEIGHT]
    · rw [move_dirX]
      norm_num [Player.updateDirection, wrapInt32, Player.new, sqrt_25]
    · rw [move_dirY]
      norm_num [Player.updateDirection, wrapInt32, Player.new]

/-- Witness of C5 as amended: a player at `(300, 300)` moved by `(3, 4)` faces
`(3/5, 4/5)`. -/
theorem move_facing_witness :
    ((3 : Int) ≠ 0 ∨ (4 : Int) ≠ 0) ∧
    ((3 : Int) * 3 + 4 * 4 ≤ 2147483647) ∧
    ((Player.new 300 300 : Player ℝ).move Real.sqrt 3 4).dirX = 3 / 5 ∧
    ((Player.new 300 300 : Player ℝ).move Real.sqrt 3 4).dirY = 4 / 5 ∧
    ((Player.new 300 300 : Player ℝ).move Real.sqrt 3 4).dirX ^ 2 +
      ((Player.new 300 300 : Player ℝ).move Real.sqrt 3 4).dirY ^ 2 = 1 := by
  have h := (move_facing (Player.new 300 300) 3 4).1 (Or.inl (by decide)) (by decide)
  have hs : Real.sqrt (((3 : Int) : ℝ) ^ 2 + ((4 : Int) : ℝ) ^ 2) = 5 := by
    rw [show (((3 : Int) : ℝ) ^ 2 + ((4 : Int) : ℝ) ^ 2) = 5 ^ 2 by norm_num]
    exact Real.sqrt_sq (by norm_num)
  rw [hs] at h
  refine ⟨Or.inl (by decide), by decide, ?_, ?_, h.2.2.1⟩
  · rw [h.1]
    norm_num
  · rw [h.2.1]
    norm_num

/-- C5, counterexample. For the nonzero delta `(65537, 0)` the 32-bit sum of squares
is 131073, not `65537 ^ 2`, and the facing after `move` has squared length
`65537 ^ 2 / 131073`, about 32769: it is not a vector of length 1 and it is not
`(dx, dy) / sqrt(dx ^ 2 + dy ^ 2) = (1, 0)`. For the delta `(50000, 0)` the 32-bit
sum of squares is negative, its square root is not a number, and the facing is not
of length 1 either (the square root of a negative number reads 0 with `Real.sqrt`). -/
theorem move_facing_overflow :
    (((65537 : Int) ≠ 0 ∨ (0 : Int) ≠ 0) ∧
      wrapInt32 (wrapInt32 (65537 * 65537) + wrapInt32 (0 * 0)) = 131073 ∧
      ((Player.new 150 200 : Player ℝ).move Real.sqrt 65537 0).dirX ^ 2 +
        ((Player.new 150 200 : Player ℝ).move Real.sqrt 65537 0).dirY ^ 2
        = 65537 ^ 2 / 131073 ∧
      ((Player.new 150 200 : Player ℝ).move Real.sqrt 65537 0).dirX ^ 2 +
        ((Player.new 150 200 : Player ℝ).move Real.sqrt 65537 0).dirY ^ 2 ≠ 1 ∧
      ((Player.new 150 200 : Player ℝ).move Real.sqrt 65537 0).dirX ≠
        ((65537 : Int) : ℝ) / Real.sqrt (((65537 : Int) : ℝ) ^ 2 + ((0 : Int) : ℝ) ^ 2)) ∧
    (((50000 : Int) ≠ 0 ∨ (0 : Int) ≠ 0) ∧
      wrapInt32 (wrapInt32 (50000 * 50000) + wrapInt32 (0 * 0)) = -1794967296 ∧
      ((Player.new 150 200 : Player ℝ).move Real.sqrt 50000 0).dirX ^ 2 +
        ((Player.new 150 200 : Player ℝ).move Real.sqrt 50000 0).dirY ^ 2 ≠ 1) := by
  have hw : wrapInt32 (wrapInt32 (65537 * 65537) + wrapInt32 (0 * 0)) = 131073 := by decide
  have hw2 : wrapInt32 (wrapInt32 (50000 * 50000) + wrapInt32 (0 * 0)) = -1794967296 := by
    decide
  have hX : ((Player.new 150 200 : Player ℝ).move Real.sqrt 65537 0).dirX =
      65537 / Real.sqrt 131073 := by
    rw [move_dirX, Player.updateDirection, if_pos (Or.inl (by decide)), hw]
    norm_num
  have hY : ((Player.new 150 200 : Player ℝ).move Real.sqrt 65537 0).dirY = 0 := by
    rw [move_dirY, Player.updateDirection, if_pos (Or.inl (by decide)), hw]
    norm_num
  have hs : Real.sqrt 131073 ^ 2 = 131073 := Real.sq_sqrt (by norm_num)
  have hsum : ((Player.new 150 200 : Player ℝ).move Real.sqrt 65537 0).dirX ^ 2 +
      ((Player.new 150 200 : Player ℝ).move Real.sqrt 65537 0).dirY ^ 2
      = 65537 ^ 2 / 131073 := by
    rw [hX, hY, div_pow, hs]
    norm_num
  have hX2 : ((Player.new 150 200 : Player ℝ).move Real.sqrt 50000 0).dirX = 0 := by
    rw [move_dirX, Player.updateDirection, if_pos (Or.inl (by decide)), hw2]
    have : Real.sqrt (((-1794967296 : Int)) : ℝ) = 0 :=
      Real.sqrt_eq_zero_of_nonpos (by norm_num)
    simp only [this, div_zero]
  have hY2 : ((Player.new 150 200 : Player ℝ).move Real.sqrt 50000 0).dirY = 0 := by
    rw [move_dirY, Player.updateDirection, if_pos (Or.inl (by decide)), hw2]
    norm_num
  refine ⟨⟨Or.inl (by decide), hw, hsum, ?_, ?_⟩, ⟨Or.inl (by decide), hw2, ?_⟩⟩
  · rw [hsum]
    norm_num
  · intro h
    have h1 : Real.sqrt (((65537 : Int) : ℝ) ^ 2 + ((0 : Int) : ℝ) ^ 2) = 65537 := by
      rw [show (((65537 : Int) : ℝ) ^ 2 + ((0 : Int) : ℝ) ^ 2) = 65537 ^ 2 by norm_num]
      exact Real.sqrt_sq (by norm_num)
    rw [h1] at h
    have h2 : ((Player.new 150 200 : Player ℝ).move Real.sqrt 65537 0).dirX = 1 := by
      rw [h]
      norm_num
    have h3 := hsum
    rw [h2, hY] at h3
    norm_num at h3
  · rw [hX2, hY2]
    norm_num

end Movement

/-! ## Timer, game over and scores -/

section Frame

variable {F : Type} [LinearOrderedField F] [FloatRounding F]

theorem handleEvent_ledger (s : MatchState F) (e : Event) :
    (handleEvent s e).ledger = s.ledger := by
  cases e <;> rfl

theorem pollEvents_ledger (s : MatchState F) (events : List Event) :
    (pollEvents s events).ledger = s.ledger := by
  unfold pollEvents
  induction events generalizing s with
  | nil => rfl
  | cons e l ih => rw [List.foldl_cons, ih, handleEvent_ledger]

theorem movementStep_ledger (sqrtF : F → F) (s : MatchState F) (k : Keys) :
    (movementStep sqrtF s k).ledger = s.ledger := rfl

theorem shootingStep_ledger (s : MatchState F) (i : Input) :
    (shootingStep s i).ledger = s.ledger := rfl

theorem ballStep_ledger (s : MatchState F) : (ballStep s).ledger = s.ledger := rfl

theorem collisionStep_ledger (sqrtF : F → F) (s : MatchState F) :
    (collisionStep sqrtF s).ledger = s.ledger := by
  unfold collisionStep
  split_ifs <;> rfl

theorem beforeGoal_ledger (sqrtF : F → F) (s : MatchState F) (i : Input) :
    (beforeGoal sqrtF s i).ledger = s.ledger := by
  unfold beforeGoal
  dsimp only
  rw [collisionStep_ledger, ballStep_ledger, shootingStep_ledger, movementStep_ledger,
    pollEvents_ledger]

theorem beforeGoal_gameOver (sqrtF : F → F) (s : MatchState F) (i : Input) :
    (beforeGoal sqrtF s i).gameOver = s.gameOver :=
  congrArg (fun l => l.1) (beforeGoal_ledger sqrtF s i)

theorem beforeGoal_matchStartTime (sqrtF : F → F) (s : MatchState F) (i : Input) :
    (beforeGoal sqrtF s i).matchStartTime = s.matchStartTime :=
  congrArg (fun l => l.2.1) (beforeGoal_ledger sqrtF s i)

theorem beforeGoal_score1 (sqrtF : F → F) (s : MatchState F) (i : Input) :
    (beforeGoal sqrtF s i).team1.score = s.team1.score :=
  congrArg (fun l => l.2.2.1) (beforeGoal_ledger sqrtF s i)

theorem beforeGoal_score2 (sqrtF : F → F) (s : MatchState F) (i : Input) :
    (beforeGoal sqrtF s i).team2.score = s.team2.score :=
  congrArg (fun l => l.2.2.2) (beforeGoal_ledger sqrtF s i)

theorem goalDetection_gameOver (s : MatchState F) :
    (goalDetection s).gameOver = s.gameOver := by
  unfold goalDetection
  split_ifs <;> rfl

theorem goalDetection_matchStartTime (s : MatchState F) :
    (goalDetection s).matchStartTime = s.matchStartTime := by
  unfold goalDetection
  split_ifs <;> rfl

theorem goalDetection_of_gameOver (s : MatchState F) (h : s.gameOver = true) :
    goalDetection s = s := by
  unfold goalDetection
  simp [h]

theorem tick_remainingTime (sqrtF : F → F) (s : MatchState F) (i : Input) :
    (tick sqrtF s i).2 = (checkTimer s.gameOver s.matchStartTime i.ticksTimer).2 := by
  unfold tick
  dsimp only
  rw [goalDetection_gameOver, goalDetection_matchStartTime, beforeGoal_gameOver,
    beforeGoal_matchStartTime]

theorem tick_gameOver (sqrtF : F → F) (s : MatchState F) (i : Input) :
    (tick sqrtF s i).1.gameOver = (checkTimer s.gameOver s.matchStartTime i.ticksTimer).1 := by
  unfold tick
  dsimp only
  rw [goalDetection_gameOver, goalDetection_matchStartTime, beforeGoal_gameOver,
    beforeGoal_matchStartTime]

end Frame

section Timer

variable {F : Type} [LinearOrderedField F] [FloatRounding F]

theorem subUint32_lt (a b : Nat) : subUint32 a b < 4294967296 :=
  Nat.mod_lt _ (by decide)

theorem uint32ToInt_small (n : Nat) (h : n < 2147483648) : uint32ToInt n = (n : Int) := by
  have h1 : toUint32 n = n := Nat.mod_eq_of_lt (by unfold UINT32_SIZE; omega)
  unfold uint32ToInt
  rw [h1, if_pos h]

/-- The unsigned difference `MATCH_DURATION - elapsedTime` of the timer block. -/
theorem subUint32_duration (e : Nat) (he : e < 4294967296) :
    subUint32 MATCH_DURATION e =
      if e ≤ 60000 then 60000 - e else 4294967296 + 60000 - e := by
  unfold subUint32 toUint32 UINT32_SIZE MATCH_DURATION
  split_ifs <;> omega

/-- The value the timer block computes before its `if`: the specified remaining
time up to the duration and a wrapped difference after it. -/
theorem remaining_raw (e : Nat) (he : e < 4294967296) :
    uint32ToInt (subUint32 MATCH_DURATION e / 1000) =
      if e ≤ 60000 then ((60000 - e) / 1000 : Nat) else ((4294967296 + 60000 - e) / 1000 : Nat) := by
  rw [uint32ToInt_small _ (by rw [subUint32_duration e he]; split_ifs <;> omega),
    subUint32_duration e he]
  split_ifs <;> rfl

/-- While the match is running, or when the elapsed time is at most the duration,
the timer block computes the remaining time of the specification. -/
theorem checkTimer_running (g : Bool) (start now : Nat)
    (h : g = false ∨ subUint32 now start ≤ MATCH_DURATION) :
    (checkTimer g start now).2 = specRemaining (subUint32 now start) := by
  have hlt := subUint32_lt now start
  unfold checkTimer
  dsimp only
  generalize subUint32 now start = e at h hlt ⊢
  rw [remaining_raw e hlt]
  unfold specRemaining MATCH_DURATION at *
  split_ifs with h1 h2
  · dsimp only
    omega
  · dsimp only
    omega
  · dsimp only
    have h3 : ¬ (e ≥ 60000 ∧ g = false) := h1
    have h4 : 60001 ≤ e := by omega
    rcases h with h | h
    · exact absurd ⟨by omega, h⟩ h3
    · omega

/-- Once the match is over and the elapsed time is past the duration, the timer
block yields the wrapped difference in seconds, a number of at least 60, where the
specification asks for 0. -/
theorem checkTimer_after_over (start now : Nat)
    (h : MATCH_DURATION < subUint32 now start) :
    (checkTimer true start now).2 =
      ((4294967296 + 60000 - subUint32 now start) / 1000 : Nat) ∧
    60 ≤ (checkTimer true start now).2 ∧
    specRemaining (subUint32 now start) = 0 := by
  have hlt := subUint32_lt now start
  unfold checkTimer
  dsimp only
  generalize subUint32 now start = e at h hlt ⊢
  rw [remaining_raw e hlt]
  unfold specRemaining MATCH_DURATION at *
  have h1 : ¬ (e ≥ 60000 ∧ true = false) := fun hh => Bool.noConfusion hh.2
  rw [if_neg h1, if_neg (by omega)]
  dsimp only
  refine ⟨rfl, by omega, by omega⟩

/-- The remaining time of the timer block is never negative. -/
theorem checkTimer_nonneg (g : Bool) (start now : Nat) : 0 ≤ (checkTimer g start now).2 := by
  have hlt := subUint32_lt now start
  unfold checkTimer
  dsimp only
  generalize subUint32 now start = e at hlt ⊢
  rw [remaining_raw e hlt]
  split_ifs <;> dsimp only <;> omega

end Timer

section GameOver

variable {F : Type} [LinearOrderedField F] [FloatRounding F]

theorem tick_matchStartTime (sqrtF : F → F) (s : MatchState F) (i : Input) :
    (tick sqrtF s i).1.matchStartTime = s.matchStartTime := by
  unfold tick
  dsimp only
  rw [goalDetection_matchStartTime, beforeGoal_matchStartTime]

theorem fullTimeState_gameOver (sqrtF : F → F) : (fullTimeState sqrtF).gameOver = true := by
  unfold fullTimeState
  rw [tick_gameOver]
  simp [MatchState.init, idleInput, checkTimer, subUint32, toUint32, UINT32_SIZE,
    MATCH_DURATION]

theorem fullTimeState_matchStartTime (sqrtF : F → F) :
    (fullTimeState sqrtF).matchStartTime = 0 := by
  unfold fullTimeState
  rw [tick_matchStartTime]
  rfl

/-- C6, the code at the failing input. The match starts at time 0 and ends in the
tick at 60000 ms; in the next tick, at 61000 ms, the timer block hands 4294966 to
the scoreboard, where `max(0, (60000 - 61000) / 1000)` is 0. -/
theorem timer_after_game_over :
    Reachable Real.sqrt (fullTimeState Real.sqrt) ∧
    (fullTimeState Real.sqrt).gameOver = true ∧
    subUint32 (idleInput 61000).ticksTimer (fullTimeState Real.sqrt).matchStartTime = 61000 ∧
    (tick Real.sqrt (fullTimeState Real.sqrt) (idleInput 61000)).2 = 4294966 ∧
    specRemaining 61000 = 0 := by
  refine ⟨Reachable.step _ _ (Reachable.init 0), fullTimeState_gameOver _, ?_, ?_, by decide⟩
  · rw [fullTimeState_matchStartTime]
    decide
  · rw [tick_remainingTime, fullTimeState_gameOver, fullTimeState_matchStartTime]
    decide

/-- C7. In every tick whose elapsed time is at least 60000 ms the flag `gameOver`
is true at the end of the tick, and in every tick that starts with `gameOver` true
it is true at the end of the tick, whatever the elapsed time and the inputs. -/
theorem game_over_latched (sqrtF : F → F) (s : MatchState F) (i : Input) :
    (MATCH_DURATION ≤ subUint32 i.ticksTimer s.matchStartTime →
      (tick sqrtF s i).1.gameOver = true) ∧
    (s.gameOver = true → (tick sqrtF s i).1.gameOver = true) := by
  rw [tick_gameOver]
  unfold checkTimer
  dsimp only
  constructor
  · intro h
    cases hg : s.gameOver
    · rw [if_pos ⟨h, rfl⟩]
    · split_ifs <;> rfl
  · intro h
    rw [h]
    split_ifs <;> rfl

/-- Witness of C7: the tick at 60000 ms of a match started at 0 sets `gameOver`,
and a later tick with a wrapped clock (elapsed time 5 ms) keeps it. -/
theorem game_over_latched_witness :
    MATCH_DURATION ≤
      subUint32 (idleInput 60000).ticksTimer (MatchState.init 0 : MatchState ℝ).matchStartTime ∧
    (MatchState.init 0 : MatchState ℝ).gameOver = false ∧
    (tick Real.sqrt (MatchState.init 0) (idleInput 60000)).1.gameOver = true ∧
    (fullTimeState Real.sqrt).gameOver = true ∧
    (tick Real.sqrt (fullTimeState Real.sqrt) (idleInput 5)).1.gameOver = true :=
  ⟨by decide, rfl,
    (game_over_latched Real.sqrt (MatchState.init 0) (idleInput 60000)).1 (by decide),
    fullTimeState_gameOver _,
    (game_over_latched Real.sqrt (fullTimeState Real.sqrt) (idleInput 5)).2
      (fullTimeState_gameOver _)⟩

/-- C8. In every tick the score of each team stays or grows by exactly one, and at
most one of the two scores changes; in a tick that starts with `gameOver` true both
scores are unchanged, wherever the ball is. -/
theorem scores_monotone_frozen (sqrtF : F → F) (s : MatchState F) (i : Input) :
    (((tick sqrtF s i).1.team1.score = s.team1.score ∧
        (tick sqrtF s i).1.team2.score = s.team2.score) ∨
      ((tick sqrtF s i).1.team1.score = s.team1.score + 1 ∧
        (tick sqrtF s i).1.team2.score = s.team2.score) ∨
      ((tick sqrtF s i).1.team1.score = s.team1.score ∧
        (tick sqrtF s i).1.team2.score = s.team2.score + 1)) ∧
    (s.gameOver = true →
      (tick sqrtF s i).1.team1.score = s.team1.score ∧
      (tick sqrtF s i).1.team2.score = s.team2.score) := by
  have h1 := beforeGoal_score1 sqrtF s i
  have h2 := beforeGoal_score2 sqrtF s i
  have hg := beforeGoal_gameOver sqrtF s i
  unfold tick
  dsimp only
  generalize beforeGoal sqrtF s i = s1 at h1 h2 hg ⊢
  unfold goalDetection
  constructor
  · split_ifs
    · right; right
      exact ⟨h1, by rw [← h2]⟩
    · right; left
      exact ⟨by rw [← h1], h2⟩
    · left
      exact ⟨h1, h2⟩
    · left
      exact ⟨h1, h2⟩
  · intro h
    rw [← hg] at h
    simp only [h, Bool.not_true, Bool.false_eq_true, if_false]
    exact ⟨h1, h2⟩

/-- Witness of C8: with the match over and the possessed ball carried onto the
corner of the left goal, the score stays at 2 : 3. -/
theorem scores_monotone_frozen_witness :
    (cornerStateOver : MatchState ℝ).gameOver = true ∧
    (tick Real.sqrt cornerStateOver (idleInput 0)).1.team1.score = 2 ∧
    (tick Real.sqrt cornerStateOver (idleInput 0)).1.team2.score = 3 :=
  ⟨rfl, (scores_monotone_frozen Real.sqrt cornerStateOver (idleInput 0)).2 rfl⟩

end GameOver

/-! ## Player selection -/

section Selection

variable {F : Type} [LinearOrderedField F]

theorem countP_deactivated (l : List (Player F)) :
    (l.map (fun p => { p with active := false })).countP (fun p => p.active) = 0 := by
  induction l with
  | nil => rfl
  | cons a l ih => simp [List.countP_cons, ih]

theorem countP_modify_deactivated (l : List (Player F)) (n : Nat) (h : n < l.length) :
    ((l.map (fun p => { p with active := false })).modify
      (fun p => { p with active := true }) n).countP (fun p => p.active) = 1 := by
  induction l generalizing n with
  | nil => simp at h
  | cons a l ih =>
    cases n with
    | zero =>
      have h0 := countP_deactivated l
      simp [List.countP_cons, h0]
    | succ n =>
      have h1 := ih n (by simpa using h)
      simp [List.countP_cons, h1]

theorem activateNext_length (t : Team F) :
    t.activateNext.players.length = t.players.length := by
  simp [Team.activateNext, Team.deactivateAll]

theorem activateNext_activeIndex (t : Team F) :
    t.activateNext.activeIndex = (t.activeIndex + 1) % t.players.length := by
  simp [Team.activateNext, Team.deactivateAll]

theorem activateNext_oneActive (t : Team F) (hne : t.players ≠ []) :
    t.activateNext.oneActive := by
  have hlen : 0 < t.players.length := List.length_pos.2 hne
  have hlt : (t.activeIndex + 1) % t.players.length < t.players.length := Nat.mod_lt _ hlen
  constructor
  · simp only [Team.activateNext, Team.deactivateAll, List.length_map]
    exact countP_modify_deactivated t.players _ hlt
  · simp only [Team.activateNext, Team.deactivateAll, List.length_map,
      List.getElem?_modify_eq, List.getElem?_map]
    rw [List.getElem?_eq_getElem hlt]
    exact ⟨_, rfl, rfl⟩

theorem iterate_activateNext_length (t : Team F) (n : Nat) :
    (Team.activateNext^[n] t).players.length = t.players.length := by
  induction n with
  | zero => rfl
  | succ n ih => rw [Function.iterate_succ_apply', activateNext_length, ih]

theorem iterate_activateNext_activeIndex (t : Team F) (n : Nat)
    (hidx : t.activeIndex < t.players.length) :
    (Team.activateNext^[n] t).activeIndex = (t.activeIndex + n) % t.players.length := by
  induction n with
  | zero => exact (Nat.mod_eq_of_lt hidx).symm
  | succ n ih =>
    rw [Function.iterate_succ_apply', activateNext_activeIndex, ih,
      iterate_activateNext_length, Nat.add_mod, Nat.mod_mod, ← Nat.add_mod, Nat.add_assoc]

theorem iterate_activateNext_oneActive (t : Team F) (hne : t.players ≠ [])
    (h : t.oneActive) (n : Nat) : (Team.activateNext^[n] t).oneActive := by
  cases n with
  | zero => exact h
  | succ n =>
    rw [Function.iterate_succ_apply']
    apply activateNext_oneActive
    intro hnil
    have := iterate_activateNext_length t n
    rw [hnil] at this
    exact hne (List.length_eq_zero.1 this.symm)

theorem init_team1_oneActive (start : Nat) :
    (MatchState.init start : MatchState F).team1.oneActive := by
  constructor
  · simp [MatchState.init, Player.new, List.modify, List.countP_cons]
  · exact ⟨_, rfl, rfl⟩

theorem init_team2_oneActive (start : Nat) :
    (MatchState.init start : MatchState F).team2.oneActive := by
  constructor
  · simp [MatchState.init, Player.new, List.modify, List.countP_cons]
  · exact ⟨_, rfl, rfl⟩

/-- C10. For every team with a non-empty roster and `activeIndex` below the roster
size, after `activateNext` the active index is `(old index + 1) mod roster size`
and exactly one player of the roster has `active = true`, the one at the new index;
so from the initial state every sequence of `activateNext` calls keeps exactly one
active player in each team, and roster-size calls return to the original index. -/
theorem activateNext_cycle (t : Team F) (hne : t.players ≠ [])
    (hidx : t.activeIndex < t.players.length) :
    (t.activateNext.activeIndex = (t.activeIndex + 1) % t.players.length ∧
      t.activateNext.players.length = t.players.length ∧
      t.activateNext.oneActive) ∧
    (∀ (start n : Nat),
      (Team.activateNext^[n] (MatchState.init start : MatchState F).team1).oneActive ∧
      (Team.activateNext^[n] (MatchState.init start : MatchState F).team2).oneActive) ∧
    (Team.activateNext^[t.players.length] t).activeIndex = t.activeIndex := by
  refine ⟨⟨activateNext_activeIndex t, activateNext_length t, activateNext_oneActive t hne⟩,
    fun start n => ⟨?_, ?_⟩, ?_⟩
  · exact iterate_activateNext_oneActive _ (by simp [MatchState.init])
      (init_team1_oneActive start) n
  · exact iterate_activateNext_oneActive _ (by simp [MatchState.init])
      (init_team2_oneActive start) n
  · rw [iterate_activateNext_activeIndex t _ hidx, Nat.add_mod_right, Nat.mod_eq_of_lt hidx]

/-- Witness of C10: in the initial team 1 (three players, index 0) one call selects
index 1 and three calls return to index 0. -/
theorem activateNext_cycle_witness :
    (MatchState.init 0 : MatchState ℚ).team1.players ≠ [] ∧
    (MatchState.init 0 : MatchState ℚ).team1.activeIndex <
      (MatchState.init 0 : MatchState ℚ).team1.players.length ∧
    (MatchState.init 0 : MatchState ℚ).team1.activateNext.activeIndex = 1 ∧
    (MatchState.init 0 : MatchState ℚ).team1.activateNext.oneActive ∧
    (Team.activateNext^[3] (MatchState.init 0 : MatchState ℚ).team1).activeIndex = 0 := by
  have hne : (MatchState.init 0 : MatchState ℚ).team1.players ≠ [] := by
    simp [MatchState.init]
  have hidx : (MatchState.init 0 : MatchState ℚ).team1.activeIndex <
      (MatchState.init 0 : MatchState ℚ).team1.players.length := by
    simp [MatchState.init]
  have h := activateNext_cycle (MatchState.init 0 : MatchState ℚ).team1 hne hidx
  exact ⟨hne, hidx, h.1.1, h.1.2.2, h.2.2⟩

end Selection

/-! ## Possession after game over -/

section AfterGameOver

variable {F : Type} [LinearOrderedField F] [FloatRounding F]

theorem chargeLoop_possessedBy (tid : TeamId) (players : List (Player F)) (now : Nat)
    (b : Ball F) : (chargeLoop tid players now b).possessedBy = b.possessedBy := by
  unfold chargeLoop
  refine foldl_preserves (fun c : Ball F => c.possessedBy = b.possessedBy) _ ?_ _ b rfl
  intro c ip hc
  dsimp only
  split_ifs
  · rw [startCharging_possessedBy, hc]
  · exact hc

theorem chargeLoop_other_team (tid : TeamId) (players : List (Player F)) (now : Nat)
    (b : Ball F) (r : PlayerRef) (hp : b.possessedBy = some r) (hr : r.team ≠ tid) :
    chargeLoop tid players now b = b := by
  unfold chargeLoop
  refine foldl_preserves (fun c : Ball F => c = b) _ ?_ _ b rfl
  intro c ip hc
  subst hc
  have hne : ¬ (c.possessedBy = some ⟨tid, ip.1⟩) := by
    rw [hp]
    intro h
    exact hr (by rw [Option.some.inj h])
  simp [hne]

theorem shootLoop_other_team (deref : PlayerRef → Player F) (tid : TeamId)
    (players : List (Player F)) (now : Nat) (b : Ball F) (r : PlayerRef)
    (hp : b.possessedBy = some r) (hr : r.team ≠ tid) :
    shootLoop deref tid players now b = b := by
  unfold shootLoop
  refine foldl_preserves (fun c : Ball F => c = b) _ ?_ _ b rfl
  intro c ip hc
  subst hc
  have hne : ¬ (c.possessedBy = some ⟨tid, ip.1⟩) := by
    rw [hp]
    intro h
    exact hr (by rw [Option.some.inj h])
  simp [hne]

/-- A shooting block does nothing to a ball held by a player of the other team. -/
theorem shootingBlock_other_team (deref : PlayerRef → Player F) (tid : TeamId)
    (players : List (Player F)) (key : Bool) (now : Nat) (b : Ball F) (r : PlayerRef)
    (hp : b.possessedBy = some r) (hr : r.team ≠ tid) :
    shootingBlock deref tid players key now b = b := by
  unfold shootingBlock
  split_ifs
  · exact chargeLoop_other_team tid players now b r hp hr
  · exact shootLoop_other_team deref tid players now b r hp hr
  · rfl

/-- A shooting block keeps the possessor of a ball that is not charging. -/
theorem shootingBlock_not_charging (deref : PlayerRef → Player F) (tid : TeamId)
    (players : List (Player F)) (key : Bool) (now : Nat) (b : Ball F)
    (hc : b.isCharging = false) :
    (shootingBlock deref tid players key now b).possessedBy = b.possessedBy := by
  unfold shootingBlock
  split_ifs with h1 h2
  · exact chargeLoop_possessedBy tid players now b
  · simp [hc] at h2
  · rfl

/-- A shooting block whose charge key is held keeps the possessor. -/
theorem shootingBlock_key_held (deref : PlayerRef → Player F) (tid : TeamId)
    (players : List (Player F)) (now : Nat) (b : Ball F) :
    (shootingBlock deref tid players true now b).possessedBy = b.possessedBy := by
  unfold shootingBlock
  rw [if_pos rfl]
  exact chargeLoop_possessedBy tid players now b

/-- A shooting block keeps the possessor of a ball that is not charging or whose
charge key is held. -/
theorem shootingBlock_keeps (deref : PlayerRef → Player F) (tid : TeamId)
    (players : List (Player F)) (key : Bool) (now : Nat) (b : Ball F)
    (h : b.isCharging = false ∨ key = true) :
    (shootingBlock deref tid players key now b).possessedBy = b.possessedBy := by
  rcases h with h | h
  · exact shootingBlock_not_charging deref tid players key now b h
  · rw [h]
    exact shootingBlock_key_held deref tid players now b

theorem shootingStep_keeps (s : MatchState F) (i : Input) (r : PlayerRef)
    (hp : s.ball.possessedBy = some r)
    (hc : s.ball.isCharging = false ∨ chargeKey i.keys r.team = true) :
    (shootingStep s i).ball.possessedBy = some r := by
  unfold shootingStep
  dsimp only
  cases ht : r.team with
  | team1 =>
    rw [ht] at hc
    have hc1 : s.ball.isCharging = false ∨ i.keys.E = true := hc
    have h1 := shootingBlock_keeps s.deref TeamId.team1 s.team1.players i.keys.E
      i.ticksTeam1 s.ball hc1
    rw [hp] at h1
    rw [shootingBlock_other_team _ TeamId.team2 _ _ _ _ r h1 (by rw [ht]; decide)]
    exact h1
  | team2 =>
    rw [ht] at hc
    have hc2 : s.ball.isCharging = false ∨ i.keys.RETURN = true := hc
    rw [shootingBlock_other_team _ TeamId.team1 _ _ _ _ r hp (by rw [ht]; decide)]
    rw [shootingBlock_keeps _ _ _ _ _ _ hc2]
    exact hp

theorem ballStep_possessedBy (s : MatchState F) :
    (ballStep s).ball.possessedBy = s.ball.possessedBy := by
  unfold ballStep
  dsimp only
  rw [wallCollision_possessedBy, update_possessedBy]

theorem collisionStep_of_possessed (sqrtF : F → F) (s : MatchState F) (r : PlayerRef)
    (hp : s.ball.possessedBy = some r) : collisionStep sqrtF s = s := by
  unfold collisionStep
  simp [hp]

theorem beforeGoal_keeps (sqrtF : F → F) (s : MatchState F) (i : Input) (r : PlayerRef)
    (hp : s.ball.possessedBy = some r)
    (hc : s.ball.isCharging = false ∨ chargeKey i.keys r.team = true) :
    (beforeGoal sqrtF s i).ball.possessedBy = some r := by
  have h1 :
      (shootingStep (movementStep sqrtF (pollEvents s i.events) i.keys) i).ball.possessedBy
        = some r := by
    apply shootingStep_keeps
    · rw [movementStep_ball, pollEvents_ball]
      exact hp
    · rw [movementStep_ball, pollEvents_ball]
      exact hc
  have h2 :=
    ballStep_possessedBy (shootingStep (movementStep sqrtF (pollEvents s i.events) i.keys) i)
  rw [h1] at h2
  unfold beforeGoal
  dsimp only
  rw [collisionStep_of_possessed sqrtF _ r h2]
  exact h2

/-- C9 as amended. In a tick that starts with `gameOver` true the goal block does
not touch the ball, so the ball at the end of the tick is the one left by the
shooting, motion and collision blocks; and a ball that starts the tick possessed
and either is not charging or has the charge key of its possessor's team held has
the same possessor at the end of the tick, for every other input and every
position. -/
theorem possession_after_game_over (sqrtF : F → F) (s : MatchState F) (i : Input)
    (hover : s.gameOver = true) :
    (tick sqrtF s i).1.ball = (beforeGoal sqrtF s i).ball ∧
    (∀ r : PlayerRef, s.ball.possessedBy = some r →
      (s.ball.isCharging = false ∨ chargeKey i.keys r.team = true) →
      (tick sqrtF s i).1.ball.possessedBy = some r) := by
  have h1 : (tick sqrtF s i).1.ball = (beforeGoal sqrtF s i).ball := by
    unfold tick
    dsimp only
    rw [goalDetection_of_gameOver _ (by rw [beforeGoal_gameOver]; exact hover)]
  refine ⟨h1, fun r hp hc => ?_⟩
  rw [h1]
  exact beforeGoal_keeps sqrtF s i r hp hc

/-- Witness of C9 as amended: with the match over, a held ball that is not charging
stays with its possessor while the possessor runs to the left, and a held, charging
ball stays with its possessor while Return is held. -/
theorem possession_after_game_over_witness :
    (heldOver false : MatchState ℝ).gameOver = true ∧
    (heldOver false : MatchState ℝ).ball.possessedBy = some ⟨TeamId.team2, 2⟩ ∧
    (heldOver false : MatchState ℝ).ball.isCharging = false ∧
    (tick Real.sqrt (heldOver false) leftInput).1.ball.possessedBy =
      some ⟨TeamId.team2, 2⟩ ∧
    (heldOver true : MatchState ℝ).ball.isCharging = true ∧
    chargeKey (returnInput 70000).keys TeamId.team2 = true ∧
    (tick Real.sqrt (heldOver true) (returnInput 70000)).1.ball.possessedBy =
      some ⟨TeamId.team2, 2⟩ :=
  ⟨rfl, rfl, rfl,
    (possession_after_game_over Real.sqrt (heldOver false) leftInput rfl).2
      ⟨TeamId.team2, 2⟩ rfl (Or.inl rfl),
    rfl, rfl,
    (possession_after_game_over Real.sqrt (heldOver true) (returnInput 70000) rfl).2
      ⟨TeamId.team2, 2⟩ rfl (Or.inr rfl)⟩

theorem tick_cruise_over : (tick Real.sqrt (cruise 25) finalLeftInput).1 = cruiseOver := by
  norm_num [tick, beforeGoal, cruise, cruiseOver, finalLeftInput, leftInput, pollEvents,
    handleEvent, movementStep, moveTeam, movePlayer, leftKeys, axisDelta, speed, Player.move,
    Player.updateDirection, wrapInt32, Player.new, shootingStep, shootingBlock, chargeLoop, shootLoop,
    ballStep, Ball.update, Ball.wallCollision, Ball.new, collisionStep, attachFirst,
    checkCollision_real, goalDetection, checkTimer, SCREEN_WIDTH, SCREEN_HEIGHT, List.enum,
    List.enumFrom, Goal.checkBallInside, leftGoal, rightGoal, goalWidth, goalHeight,
    subUint32, toUint32, UINT32_SIZE, MATCH_DURATION, sqrt_25]

theorem tick_caught_over :
    (tick Real.sqrt caughtState finalReturnInput).1 = heldOver true := by
  norm_num [tick, beforeGoal, cruise, caughtState, heldOver, finalReturnInput, returnInput,
    pollEvents, handleEvent,
    movementStep, moveTeam, movePlayer, axisDelta, speed, Player.move,
    Player.updateDirection, wrapInt32, Player.new, shootingStep, shootingBlock, chargeLoop, shootLoop,
    ballStep, Ball.update, Ball.wallCollision, Ball.new, collisionStep, attachFirst,
    checkCollision_real, goalDetection, checkTimer, SCREEN_WIDTH, SCREEN_HEIGHT, List.enum,
    List.enumFrom, Goal.checkBallInside, leftGoal, rightGoal, goalWidth, goalHeight,
    subUint32, toUint32, UINT32_SIZE, MATCH_DURATION, sqrt_25, Ball.startCharging,
    MatchState.deref, resetBall]

theorem cruiseOver_reachable : Reachable Real.sqrt cruiseOver := by
  rw [← tick_cruise_over]
  exact Reachable.step _ _ (cruise_reachable 25 (by decide) (by decide))

theorem heldOver_reachable : Reachable Real.sqrt (heldOver true) := by
  rw [← tick_caught_over]
  exact Reachable.step _ _ caughtState_reachable

/-- C9, counterexample. Both states are reachable and have the match over. In the
first a free ball is one step away from a running player and is attached to that
player in the next tick; in the second a charging ball is shot in the tick in which
the charge key is up. In both ticks the possessor at the end differs from the
possessor at the start. -/
theorem possession_changes_after_game_over :
    (Reachable Real.sqrt cruiseOver ∧
      (cruiseOver : MatchState ℝ).gameOver = true ∧
      (cruiseOver : MatchState ℝ).ball.possessedBy = none ∧
      (tick Real.sqrt cruiseOver leftInput).1.ball.possessedBy = some ⟨TeamId.team2, 2⟩) ∧
    (Reachable Real.sqrt (heldOver true) ∧
      (heldOver true : MatchState ℝ).gameOver = true ∧
      (heldOver true : MatchState ℝ).ball.possessedBy = some ⟨TeamId.team2, 2⟩ ∧
      (tick Real.sqrt (heldOver true) (idleInput 70000)).1.ball.possessedBy = none) := by
  refine ⟨⟨cruiseOver_reachable, rfl, rfl, ?_⟩, ⟨heldOver_reachable, rfl, rfl, ?_⟩⟩
  · norm_num [tick, beforeGoal, cruiseOver, cruise, leftInput, pollEvents, handleEvent,
      movementStep, moveTeam, movePlayer, leftKeys, axisDelta, speed, Player.move,
      Player.updateDirection, wrapInt32, Player.new, shootingStep, shootingBlock, chargeLoop, shootLoop,
      ballStep, Ball.update, Ball.wallCollision, Ball.new, collisionStep, attachFirst,
      checkCollision_real, goalDetection, checkTimer, SCREEN_WIDTH, SCREEN_HEIGHT, List.enum,
      List.enumFrom, subUint32, toUint32, UINT32_SIZE, MATCH_DURATION, sqrt_25,
      Ball.attachToPlayer]
  · norm_num [tick, beforeGoal, heldOver, cruise, idleInput, pollEvents, handleEvent,
      movementStep, moveTeam, movePlayer, noKeys, axisDelta, speed, Player.move,
      Player.updateDirection, wrapInt32, Player.new, shootingStep, shootingBlock, chargeLoop, shootLoop,
      ballStep, Ball.update, Ball.wallCollision, Ball.new, collisionStep, attachFirst,
      checkCollision_real, goalDetection, checkTimer, SCREEN_WIDTH, SCREEN_HEIGHT, List.enum,
      List.enumFrom, subUint32, toUint32, UINT32_SIZE, MATCH_DURATION, sqrt_25,
      Ball.attachToPlayer, Ball.shoot, MatchState.deref, shotPower, chargePower,
      MIN_SHOT_POWER, MAX_SHOT_POWER, MAX_CHARGE_TIME, min_def]

end AfterGameOver

/-! ## Effect of a shot -/

section Shot

theorem shotPower_pos (d : Nat) : (0 : ℝ) < shotPower d := by
  have h := (chargePower_nonneg d : (0 : ℝ) ≤ chargePower d)
  simp only [shotPower, MIN_SHOT_POWER, MAX_SHOT_POWER]
  linarith

theorem shotPower_full (d : Nat) (h : 2000 ≤ d) : (shotPower d : ℝ) = 20 := by
  simp only [shotPower, MIN_SHOT_POWER, MAX_SHOT_POWER, chargePower_full d h]
  norm_num

/-- The length of a unit vector scaled by a non-negative factor is the factor. -/
theorem sqrt_scaled_unit (u v k : ℝ) (hu : u ^ 2 + v ^ 2 = 1) (hk : 0 ≤ k) :
    Real.sqrt ((u * k) ^ 2 + (v * k) ^ 2) = k := by
  have h : (u * k) ^ 2 + (v * k) ^ 2 = k ^ 2 := by
    have : (u * k) ^ 2 + (v * k) ^ 2 = (u ^ 2 + v ^ 2) * k ^ 2 := by ring
    rw [this, hu, one_mul]
  rw [h]
  exact Real.sqrt_sq hk

/-- C11. For a ball possessed by a player with facing `(dirX, dirY)`, `shoot` sets
the velocity to `(dirX, dirY) * shotSpeed` and the position to the position of the
shooter plus `(dirX, dirY) * (shooter radius + ball radius + 2)`, and clears the
possessor and the charging flag; when the facing is a unit vector and the radii are
20 and 5, the centre of the ball is at distance 27 from the shooter, more than the
attachment distance 25, and the speed of the ball is `shotSpeed`. On a ball without
possessor `shoot` changes nothing. -/
theorem shoot_effect (deref : PlayerRef → Player ℝ) (b : Ball ℝ) (now : Nat) :
    (∀ r : PlayerRef, b.possessedBy = some r →
      (b.shoot deref now).vx = (deref r).dirX * shotPower (subUint32 now b.chargeStartTime) ∧
      (b.shoot deref now).vy = (deref r).dirY * shotPower (subUint32 now b.chargeStartTime) ∧
      (b.shoot deref now).x =
        ((deref r).x : ℝ) + (deref r).dirX * (((deref r).radius + b.radius + 2 : Int) : ℝ) ∧
      (b.shoot deref now).y =
        ((deref r).y : ℝ) + (deref r).dirY * (((deref r).radius + b.radius + 2 : Int) : ℝ) ∧
      (b.shoot deref now).possessedBy = none ∧
      (b.shoot deref now).isCharging = false ∧
      ((deref r).dirX ^ 2 + (deref r).dirY ^ 2 = 1 → (deref r).radius = 20 → b.radius = 5 →
        Real.sqrt (((b.shoot deref now).x - ((deref r).x : ℝ)) ^ 2 +
          ((b.shoot deref now).y - ((deref r).y : ℝ)) ^ 2) = 27 ∧
        ((((deref r).radius + b.radius : Int) : ℝ) = 25 ∧ (25 : ℝ) < 27) ∧
        Real.sqrt ((b.shoot deref now).vx ^ 2 + (b.shoot deref now).vy ^ 2) =
          shotPower (subUint32 now b.chargeStartTime))) ∧
    (b.possessedBy = none → b.shoot deref now = b) := by
  constructor
  · intro r hr
    have hx : (b.shoot deref now).x =
        ((deref r).x : ℝ) + (deref r).dirX * (((deref r).radius + b.radius + 2 : Int) : ℝ) := by
      simp only [Ball.shoot, hr]
    have hy : (b.shoot deref now).y =
        ((deref r).y : ℝ) + (deref r).dirY * (((deref r).radius + b.radius + 2 : Int) : ℝ) := by
      simp only [Ball.shoot, hr]
    have hvx : (b.shoot deref now).vx =
        (deref r).dirX * shotPower (subUint32 now b.chargeStartTime) := by
      simp only [Ball.shoot, hr]
    have hvy : (b.shoot deref now).vy =
        (deref r).dirY * shotPower (subUint32 now b.chargeStartTime) := by
      simp only [Ball.shoot, hr]
    refine ⟨hvx, hvy, hx, hy, by simp only [Ball.shoot, hr], by simp only [Ball.shoot, hr], ?_⟩
    intro hunit hrad hbrad
    refine ⟨?_, ⟨by rw [hrad, hbrad]; norm_num, by norm_num⟩, ?_⟩
    · rw [hx, hy, hrad, hbrad, add_sub_cancel_left, add_sub_cancel_left]
      have h27 : (((20 + 5 + 2 : Int)) : ℝ) = 27 := by norm_num
      rw [h27]
      exact sqrt_scaled_unit _ _ 27 hunit (by norm_num)
    · rw [hvx, hvy]
      exact sqrt_scaled_unit _ _ _ hunit (shotPower_pos _).le
  · intro h
    simp only [Ball.shoot, h]

/-- Witness of C11: the charging ball of `heldOver true`, held by a player at
`(515, 400)` who faces `(-1, 0)`, is shot after 70 s of charge: it leaves at
`(488, 400)` with velocity `(-20, 0)`; a free ball is left alone. -/
theorem shoot_effect_witness :
    (heldOver true : MatchState ℝ).ball.possessedBy = some ⟨TeamId.team2, 2⟩ ∧
    (((heldOver true : MatchState ℝ).ball.shoot (heldOver true).deref 70000).x = 488 ∧
      ((heldOver true : MatchState ℝ).ball.shoot (heldOver true).deref 70000).vx = -20 ∧
      ((heldOver true : MatchState ℝ).ball.shoot (heldOver true).deref 70000).possessedBy
        = none) ∧
    Real.sqrt
      ((((heldOver true : MatchState ℝ).ball.shoot (heldOver true).deref 70000).x - 515) ^ 2 +
        (((heldOver true : MatchState ℝ).ball.shoot (heldOver true).deref 70000).y - 400) ^ 2)
      = 27 ∧
    ((cruise 3 : MatchState ℝ).ball.possessedBy = none ∧
      (cruise 3 : MatchState ℝ).ball.shoot (cruise 3).deref 70000 = (cruise 3).ball) := by
  have h := shoot_effect (heldOver true : MatchState ℝ).deref (heldOver true).ball 70000
  have h1 := h.1 ⟨TeamId.team2, 2⟩ rfl
  have hd : ((heldOver true : MatchState ℝ).deref ⟨TeamId.team2, 2⟩).dirX ^ 2 +
      ((heldOver true : MatchState ℝ).deref ⟨TeamId.team2, 2⟩).dirY ^ 2 = 1 := by
    norm_num [MatchState.deref, heldOver, cruise]
  have h2 := h1.2.2.2.2.2.2 hd rfl rfl
  have hp : (shotPower (subUint32 70000 (heldOver true : MatchState ℝ).ball.chargeStartTime) : ℝ)
      = 20 := shotPower_full _ (by decide)
  refine ⟨rfl, ⟨?_, ?_, h1.2.2.2.2.1⟩, ?_, rfl,
    (shoot_effect (cruise 3 : MatchState ℝ).deref (cruise 3).ball 70000).2 rfl⟩
  · rw [h1.2.2.1]
    norm_num [MatchState.deref, heldOver, cruise]
  · rw [h1.1, hp]
    norm_num [MatchState.deref, heldOver, cruise]
  · exact h2.1

end Shot

/-! ## Rounding to binary32 -/

section Float32

theorem roundHalfEven_near (m : ℚ) (n : ℤ) (h : |m - n| < 1 / 2) : roundHalfEven m = n := by
  rw [abs_lt] at h
  unfold roundHalfEven
  by_cases hge : (n : ℚ) ≤ m
  · have hf : ⌊m⌋ = n := by
      rw [Int.floor_eq_iff]
      constructor
      · exact hge
      · linarith [h.2]
    rw [hf, if_pos (by linarith [h.2])]
  · have hlt : m < n := lt_of_not_ge hge
    have hf : ⌊m⌋ = n - 1 := by
      rw [Int.floor_eq_iff]
      push_cast
      constructor
      · linarith [h.1]
      · linarith
    rw [hf]
    push_cast
    rw [if_neg (by linarith [h.1]), if_pos (by linarith [h.1])]
    ring

theorem log2_eq_of_bounds (a : ℚ) (e : ℤ) (hlo : (2 : ℚ) ^ e ≤ a) (hhi : a < 2 ^ (e + 1)) :
    Int.log 2 a = e := by
  have hpos : 0 < a := lt_of_lt_of_le (by positivity) hlo
  have h1 : e ≤ Int.log 2 a := by
    rw [← Int.zpow_le_iff_le_log (by norm_num) hpos]
    simpa using hlo
  have h2 : Int.log 2 a < e + 1 := by
    rw [← Int.lt_zpow_iff_log_lt (by norm_num) hpos]
    simpa using hhi
  omega

/-- A positive value in the binade of quantum `2 ^ t` rounds to the multiple of the
quantum that is less than half a quantum away. -/
theorem roundPos32_eq (a : ℚ) (n t : ℤ) (hlo : (2 : ℚ) ^ (t + 23) ≤ a)
    (hhi : a < 2 ^ (t + 24)) (ht : -149 ≤ t) (hnear : |a - n * 2 ^ t| < 2 ^ t / 2) :
    roundPos32 a = n * 2 ^ t := by
  have hlog : Int.log 2 a = t + 23 :=
    log2_eq_of_bounds a (t + 23) hlo (by rw [show t + 23 + 1 = t + 24 by ring]; exact hhi)
  have hq : quantum32 a = t := by
    unfold quantum32
    rw [hlog]
    rw [show t + 23 - 23 = t by ring]
    exact max_eq_left ht
  have hpow : (0 : ℚ) < 2 ^ t := by positivity
  unfold roundPos32
  rw [hq, roundHalfEven_near (a / 2 ^ t) n]
  have : a / 2 ^ t - n = (a - n * 2 ^ t) / 2 ^ t := by
    field_simp
    ring
  rw [this, abs_div, abs_of_pos hpow, div_lt_iff₀ hpow]
  linarith

theorem roundF32_pos_eq (a : ℚ) (n t : ℤ) (hlo : (2 : ℚ) ^ (t + 23) ≤ a)
    (hhi : a < 2 ^ (t + 24)) (ht : -149 ≤ t) (hnear : |a - n * 2 ^ t| < 2 ^ t / 2) :
    roundF32 a = n * 2 ^ t := by
  have hpos : 0 < a := lt_of_lt_of_le (by positivity) hlo
  unfold roundF32
  rw [if_pos hpos]
  exact roundPos32_eq a n t hlo hhi ht hnear

theorem roundF32_neg_eq (a : ℚ) (n t : ℤ) (hlo : (2 : ℚ) ^ (t + 23) ≤ -a)
    (hhi : -a < 2 ^ (t + 24)) (ht : -149 ≤ t) (hnear : |-a - n * 2 ^ t| < 2 ^ t / 2) :
    roundF32 a = -(n * 2 ^ t) := by
  have hpos : 0 < -a := lt_of_lt_of_le (by positivity) hlo
  unfold roundF32
  rw [if_neg (by linarith), if_pos (by linarith)]
  rw [roundPos32_eq (-a) n t hlo hhi ht hnear]

theorem sqrtRound32_625 : sqrtRound32 625 = 25 := by
  have hlog : Int.log 2 (625 : ℚ) = 9 := log2_eq_of_bounds 625 9 (by norm_num) (by norm_num)
  have h25 : roundF32 25 = 25 := by
    rw [roundF32_pos_eq 25 13107200 (-19) (by norm_num) (by norm_num) (by norm_num)
      (by norm_num)]
    norm_num
  have hscaled : (625 : ℚ) * 4 ^ (36 : ℤ) = ((2951479051793528258560000 : ℕ) : ℚ) := by
    norm_num
  have hsqrt : Nat.sqrt 2951479051793528258560000 = 1717986918400 := by
    norm_num
  unfold sqrtRound32
  rw [if_neg (by norm_num)]
  simp only [hlog]
  rw [show (40 : ℤ) - 9 / 2 = 36 by norm_num, hscaled, Nat.floor_natCast, hsqrt]
  rw [if_pos (by norm_num)]
  rw [show ((1717986918400 : ℕ) : ℚ) / 2 ^ (36 : ℤ) = 25 by norm_num]
  exact h25

theorem roundF32_420 : roundF32 420 = 420 := by
  rw [roundF32_pos_eq 420 13762560 (-15) (by norm_num) (by norm_num) (by norm_num)
    (by norm_num)]
  norm_num

theorem roundF32_25 : roundF32 25 = 25 := by
  rw [roundF32_pos_eq 25 13107200 (-19) (by norm_num) (by norm_num) (by norm_num)
    (by norm_num)]
  norm_num

theorem roundF32_300 : roundF32 300 = 300 := by
  rw [roundF32_pos_eq 300 9830400 (-15) (by norm_num) (by norm_num) (by norm_num)
    (by norm_num)]
  norm_num

/-- The `float` operations of the collision test for a player at `(420, 300)` and a
ball at `(6474663 / 16384, 9929087 / 32768)`: both differences are exact, the two
squares are rounded, their sum rounds to 625 and its square root is 25. -/
theorem threshold_rounding :
    roundF32 (420 - 6474663 / 16384) = 406617 / 16384 ∧
    roundF32 (300 - 9929087 / 32768) = -(98687 / 32768) ∧
    roundF32 (406617 / 16384 * (406617 / 16384)) = 10091393 / 16384 ∧
    roundF32 (-(98687 / 32768) * -(98687 / 32768)) = 9510863 / 1048576 ∧
    roundF32 (10091393 / 16384 + 9510863 / 1048576) = 625 := by
  refine ⟨?_, ?_, ?_, ?_, ?_⟩
  · rw [roundF32_pos_eq _ 13011744 (-19) (by norm_num) (by norm_num) (by norm_num)
      (by norm_num [abs_lt])]
    norm_num
  · rw [roundF32_neg_eq _ 12631936 (-22) (by norm_num) (by norm_num) (by norm_num)
      (by norm_num [abs_lt])]
    norm_num
  · rw [roundF32_pos_eq _ 10091393 (-14) (by norm_num) (by norm_num) (by norm_num)
      (by norm_num [abs_lt])]
    norm_num
  · rw [roundF32_pos_eq _ 9510863 (-20) (by norm_num) (by norm_num) (by norm_num)
      (by norm_num [abs_lt])]
    norm_num
  · rw [roundF32_pos_eq _ 10240000 (-14) (by norm_num) (by norm_num) (by norm_num)
      (by norm_num [abs_lt])]
    norm_num

/-- The distance that `checkCollision` computes in binary32 between the first
player of team 1 and the ball of `thresholdState` is exactly 25. -/
theorem thresholdState_distance :
    collisionDistance sqrtF32
      ({ x := 420, y := 300, radius := 20, active := true, dirX := 1, dirY := 0 } : Player F32)
      thresholdState.ball = (25 : ℚ) := by
  obtain ⟨h1, h2, h3, h4, h5⟩ := threshold_rounding
  show roundF32 (sqrtRound32 (roundF32
    (roundF32 (roundF32 (roundF32 ((420 : ℤ) : ℚ) - 6474663 / 16384) *
        roundF32 (roundF32 ((420 : ℤ) : ℚ) - 6474663 / 16384)) +
      roundF32 (roundF32 (roundF32 ((300 : ℤ) : ℚ) - 9929087 / 32768) *
        roundF32 (roundF32 ((300 : ℤ) : ℚ) - 9929087 / 32768))))) = 25
  rw [show ((420 : ℤ) : ℚ) = 420 by norm_num, show ((300 : ℤ) : ℚ) = 300 by norm_num,
    roundF32_420, roundF32_300, h1, h2, h3, h4, h5, sqrtRound32_625, roundF32_25]

end Float32

/-! ## Attachment order -/

section Attachment

variable {F : Type} [LinearOrderedField F] [FloatRounding F]

/-- A search over an enumerated list returns the first element that passes the test,
with its index. -/
theorem find_enumFrom_first {α : Type} (c : α → Bool) (l : List α) (k i : Nat) (p : α)
    (hp : l[i]? = some p) (hc : c p = true)
    (hfirst : ∀ (j : Nat) (q : α), j < i → l[j]? = some q → c q = false) :
    (l.enumFrom k).find? (fun ip => c ip.2) = some (k + i, p) := by
  induction l generalizing k i with
  | nil => simp at hp
  | cons a l ih =>
    cases i with
    | zero =>
      simp only [List.getElem?_cons_zero, Option.some.injEq] at hp
      subst hp
      rw [List.enumFrom_cons, List.find?_cons_of_pos _ (by simpa using hc)]
      rfl
    | succ i =>
      have ha : c a = false := hfirst 0 a (Nat.succ_pos i) (by simp)
      rw [List.enumFrom_cons, List.find?_cons_of_neg _ (by simp [ha])]
      rw [ih (k + 1) i (by simpa using hp)
        (fun j q hj hq => hfirst (j + 1) q (Nat.succ_lt_succ hj) (by simpa using hq))]
      congr 2
      omega

/-- A search over an enumerated list fails when no element passes the test. -/
theorem find_enumFrom_none {α : Type} (c : α → Bool) (l : List α) (k : Nat)
    (hnone : ∀ (j : Nat) (q : α), l[j]? = some q → c q = false) :
    (l.enumFrom k).find? (fun ip => c ip.2) = none := by
  induction l generalizing k with
  | nil => rfl
  | cons a l ih =>
    have ha : c a = false := hnone 0 a (by simp)
    rw [List.enumFrom_cons, List.find?_cons_of_neg _ (by simp [ha])]
    exact ih (k + 1) (fun j q hq => hnone (j + 1) q (by simpa using hq))

theorem attachFirst_first (sqrtF : F → F) (tid : TeamId) (players : List (Player F))
    (b : Ball F) (i : Nat) (p : Player F) (hp : players[i]? = some p)
    (hc : checkCollision sqrtF p b = true)
    (hfirst : ∀ (j : Nat) (q : Player F), j < i → players[j]? = some q →
      checkCollision sqrtF q b = false) :
    attachFirst sqrtF tid players b = b.attachToPlayer ⟨tid, i⟩ := by
  unfold attachFirst List.enum
  rw [find_enumFrom_first (fun q => checkCollision sqrtF q b) players 0 i p hp hc hfirst]
  simp

theorem attachFirst_none (sqrtF : F → F) (tid : TeamId) (players : List (Player F))
    (b : Ball F) (hnone : ∀ (j : Nat) (q : Player F), players[j]? = some q →
      checkCollision sqrtF q b = false) :
    attachFirst sqrtF tid players b = b := by
  unfold attachFirst List.enum
  rw [find_enumFrom_none (fun q => checkCollision sqrtF q b) players 0 hnone]

/-- A roster loop of the collision block leaves the ball alone or attaches it to a
player of that roster. -/
theorem attachFirst_cases (sqrtF : F → F) (tid : TeamId) (players : List (Player F))
    (b : Ball F) :
    attachFirst sqrtF tid players b = b ∨
      ∃ i, attachFirst sqrtF tid players b = b.attachToPlayer ⟨tid, i⟩ := by
  unfold attachFirst
  split
  · exact Or.inr ⟨_, rfl⟩
  · exact Or.inl rfl

/-- With radii 20 and 5 the collision test is the test `touches`. -/
theorem checkCollision_iff_touches (sqrtF : F → F) (p : Player F) (b : Ball F)
    (hp : p.radius = 20) (hb : b.radius = 5) :
    checkCollision sqrtF p b = true ↔ touches sqrtF p b := by
  unfold checkCollision touches
  simp only [decide_eq_true_eq, hp, hb]
  norm_num

theorem checkCollision_false_of_not_touches (sqrtF : F → F) (p : Player F) (b : Ball F)
    (hp : p.radius = 20) (hb : b.radius = 5) (h : ¬ touches sqrtF p b) :
    checkCollision sqrtF p b = false := by
  rw [Bool.eq_false_iff]
  exact fun hc => h ((checkCollision_iff_touches sqrtF p b hp hb).1 hc)

/-- With exact arithmetic over the reals the test `touches` compares the squared
Euclidean distance with 625. -/
theorem touches_real_iff (p : Player ℝ) (b : Ball ℝ) :
    touches Real.sqrt p b ↔ ((p.x : ℝ) - b.x) ^ 2 + ((p.y : ℝ) - b.y) ^ 2 ≤ 625 := by
  unfold touches collisionDistance
  simp only [FloatRounding.round]
  rw [Real.sqrt_le_iff, ← sq, ← sq]
  constructor
  · intro h
    have := h.2
    norm_num at this
    exact this
  · intro h
    refine ⟨by norm_num, ?_⟩
    norm_num
    exact h

theorem collisionStep_first_team1 (sqrtF : F → F) (s : MatchState F) (i : Nat)
    (hfree : s.ball.possessedBy = none)
    (h : attachFirst sqrtF TeamId.team1 s.team1.players s.ball =
      s.ball.attachToPlayer ⟨TeamId.team1, i⟩) :
    (collisionStep sqrtF s).ball = s.ball.attachToPlayer ⟨TeamId.team1, i⟩ := by
  unfold collisionStep
  simp [hfree, h, Ball.attachToPlayer]

theorem collisionStep_skip_team1 (sqrtF : F → F) (s : MatchState F)
    (hfree : s.ball.possessedBy = none)
    (h : attachFirst sqrtF TeamId.team1 s.team1.players s.ball = s.ball) :
    (collisionStep sqrtF s).ball = attachFirst sqrtF TeamId.team2 s.team2.players s.ball := by
  unfold collisionStep
  simp [hfree, h]

/-- C13 as amended. When the collision block runs on a ball without possessor (radii
20 and 5), the ball is attached to the first player, in the order team 1 roster then
team 2 roster, that passes the test of `checkCollision`, that is, whose distance
from the centre of the ball as the `float` operations compute it (rounded
differences, squares, sum and square root) is at most 25, and its velocity becomes
`(0, 0)`; if no player passes the test the ball stays free with its velocity
unchanged; on a possessed ball the block changes nothing. So a player of team 1 that
passes the test wins over every player of team 2 that passes it. This holds for any
rounding of the `float` operations and any square root. -/
theorem attachment_order (sqrtF : F → F) (s : MatchState F) (hb : s.ball.radius = 5)
    (h1 : ∀ p ∈ s.team1.players, p.radius = 20)
    (h2 : ∀ p ∈ s.team2.players, p.radius = 20) :
    (s.ball.possessedBy ≠ none → collisionStep sqrtF s = s) ∧
    (s.ball.possessedBy = none →
      (∀ (i : Nat) (p : Player F), s.team1.players[i]? = some p →
        touches sqrtF p s.ball →
        (∀ (j : Nat) (q : Player F), j < i → s.team1.players[j]? = some q →
          ¬ touches sqrtF q s.ball) →
        (collisionStep sqrtF s).ball = s.ball.attachToPlayer ⟨TeamId.team1, i⟩) ∧
      (∀ (i : Nat) (p : Player F),
        (∀ (j : Nat) (q : Player F), s.team1.players[j]? = some q →
          ¬ touches sqrtF q s.ball) →
        s.team2.players[i]? = some p → touches sqrtF p s.ball →
        (∀ (j : Nat) (q : Player F), j < i → s.team2.players[j]? = some q →
          ¬ touches sqrtF q s.ball) →
        (collisionStep sqrtF s).ball = s.ball.attachToPlayer ⟨TeamId.team2, i⟩) ∧
      ((∀ (j : Nat) (q : Player F), s.team1.players[j]? = some q →
          ¬ touches sqrtF q s.ball) →
        (∀ (j : Nat) (q : Player F), s.team2.players[j]? = some q →
          ¬ touches sqrtF q s.ball) →
        (collisionStep sqrtF s).ball = s.ball) ∧
      ((∃ (i : Nat) (p : Player F), s.team1.players[i]? = some p ∧
          touches sqrtF p s.ball) →
        ∃ i : Nat, (collisionStep sqrtF s).ball.possessedBy = some ⟨TeamId.team1, i⟩)) ∧
    (∀ p ∈ s.team1.players ++ s.team2.players,
      (touches sqrtF p s.ball ↔ checkCollision sqrtF p s.ball = true) ∧
      (touches sqrtF p s.ball ↔
        FloatRounding.round (sqrtF (FloatRounding.round (
          FloatRounding.round (
            FloatRounding.round (FloatRounding.round (p.x : F) - s.ball.x) *
            FloatRounding.round (FloatRounding.round (p.x : F) - s.ball.x)) +
          FloatRounding.round (
            FloatRounding.round (FloatRounding.round (p.y : F) - s.ball.y) *
            FloatRounding.round (FloatRounding.round (p.y : F) - s.ball.y)))))
        ≤ FloatRounding.round 25)) ∧
    (∀ (b : Ball F) (r : PlayerRef),
      (b.attachToPlayer r).possessedBy = some r ∧
      (b.attachToPlayer r).vx = 0 ∧ (b.attachToPlayer r).vy = 0 ∧
      (b.attachToPlayer r).x = b.x ∧ (b.attachToPlayer r).y = b.y) ∧
    ((collisionStep sqrtF s).team1 = s.team1 ∧
      (collisionStep sqrtF s).team2 = s.team2) := by
  have hc1 : ∀ (j : Nat) (q : Player F), s.team1.players[j]? = some q →
      ¬ touches sqrtF q s.ball → checkCollision sqrtF q s.ball = false :=
    fun j q hq hn =>
      checkCollision_false_of_not_touches _ q s.ball (h1 q (List.getElem?_mem hq)) hb hn
  have hc2 : ∀ (j : Nat) (q : Player F), s.team2.players[j]? = some q →
      ¬ touches sqrtF q s.ball → checkCollision sqrtF q s.ball = false :=
    fun j q hq hn =>
      checkCollision_false_of_not_touches _ q s.ball (h2 q (List.getElem?_mem hq)) hb hn
  refine ⟨?_, fun hfree => ⟨?_, ?_, ?_, ?_⟩, ?_, fun b r => ⟨rfl, rfl, rfl, rfl, rfl⟩, ?_⟩
  · intro hposs
    obtain ⟨r, hr⟩ := Option.ne_none_iff_exists'.1 hposs
    exact collisionStep_of_possessed sqrtF s r hr
  · intro i p hp ht hfirst
    apply collisionStep_first_team1 sqrtF s i hfree
    exact attachFirst_first sqrtF _ _ _ i p hp
      ((checkCollision_iff_touches _ p s.ball (h1 p (List.getElem?_mem hp)) hb).2 ht)
      (fun j q hj hq => hc1 j q hq (hfirst j q hj hq))
  · intro i p hnone1 hp ht hfirst
    rw [collisionStep_skip_team1 sqrtF s hfree
      (attachFirst_none sqrtF _ _ _ (fun j q hq => hc1 j q hq (hnone1 j q hq)))]
    exact attachFirst_first sqrtF _ _ _ i p hp
      ((checkCollision_iff_touches _ p s.ball (h2 p (List.getElem?_mem hp)) hb).2 ht)
      (fun j q hj hq => hc2 j q hq (hfirst j q hj hq))
  · intro hnone1 hnone2
    rw [collisionStep_skip_team1 sqrtF s hfree
      (attachFirst_none sqrtF _ _ _ (fun j q hq => hc1 j q hq (hnone1 j q hq)))]
    exact attachFirst_none sqrtF _ _ _ (fun j q hq => hc2 j q hq (hnone2 j q hq))
  · rintro ⟨i, p, hp, ht⟩
    rcases attachFirst_cases sqrtF TeamId.team1 s.team1.players s.ball with h | ⟨k, h⟩
    · exfalso
      unfold attachFirst at h
      have hfind : (s.team1.players.enum.find?
          (fun ip => checkCollision sqrtF ip.2 s.ball)) = none := by
        cases hf : s.team1.players.enum.find?
          (fun ip => checkCollision sqrtF ip.2 s.ball) with
        | none => rfl
        | some ip =>
          rw [hf] at h
          have hpb := congrArg Ball.possessedBy h
          rw [hfree] at hpb
          exact absurd hpb (Option.some_ne_none _)
      rw [List.find?_eq_none] at hfind
      have hmem : (i, p) ∈ s.team1.players.enum := by
        rw [List.mem_iff_getElem?]
        exact ⟨i, by simp [List.enum, List.getElem?_enumFrom, hp]⟩
      have := hfind (i, p) hmem
      exact this ((checkCollision_iff_touches _ p s.ball
        (h1 p (List.getElem?_mem hp)) hb).2 ht)
    · exact ⟨k, by rw [collisionStep_first_team1 sqrtF s k hfree h]; rfl⟩
  · intro p hp
    have hr : p.radius = 20 := by
      rcases List.mem_append.1 hp with h | h
      · exact h1 p h
      · exact h2 p h
    exact ⟨(checkCollision_iff_touches sqrtF p s.ball hr hb).symm, Iff.rfl⟩
  · unfold collisionStep
    split_ifs <;> exact ⟨rfl, rfl⟩

theorem crowdedState_radii :
    (crowdedState : MatchState ℝ).ball.radius = 5 ∧
    (∀ p ∈ (crowdedState : MatchState ℝ).team1.players, p.radius = 20) ∧
    (∀ p ∈ (crowdedState : MatchState ℝ).team2.players, p.radius = 20) := by
  refine ⟨rfl, ?_, ?_⟩ <;>
  · intro p hp
    simp only [crowdedState, Player.new, List.mem_cons, List.mem_singleton,
      List.not_mem_nil, or_false] at hp
    rcases hp with rfl | rfl | rfl <;> rfl

theorem cruise_radii (m : Nat) :
    (cruise m : MatchState ℝ).ball.radius = 5 ∧
    (∀ p ∈ (cruise m : MatchState ℝ).team1.players, p.radius = 20) ∧
    (∀ p ∈ (cruise m : MatchState ℝ).team2.players, p.radius = 20) := by
  refine ⟨rfl, ?_, ?_⟩ <;>
  · intro p hp
    simp only [cruise, Player.new, List.mem_cons, List.mem_singleton,
      List.not_mem_nil, or_false] at hp
    rcases hp with rfl | rfl | rfl <;> rfl

theorem thresholdState_radii :
    thresholdState.ball.radius = 5 ∧
    (∀ p ∈ thresholdState.team1.players, p.radius = 20) ∧
    (∀ p ∈ thresholdState.team2.players, p.radius = 20) := by
  refine ⟨rfl, ?_, ?_⟩ <;>
  · intro p hp
    simp only [thresholdState, Player.new, List.mem_cons, List.mem_singleton,
      List.not_mem_nil, or_false] at hp
    rcases hp with rfl | rfl | rfl <;> rfl

/-- In binary32 the first player of team 1 passes the test on the ball of
`thresholdState`: the computed distance is 25. -/
theorem thresholdState_touches :
    touches sqrtF32
      ({ x := 420, y := 300, radius := 20, active := true, dirX := 1, dirY := 0 } : Player F32)
      thresholdState.ball := by
  unfold touches
  rw [thresholdState_distance]
  show (25 : ℚ) ≤ roundF32 25
  rw [roundF32_25]

theorem crowdedState_no_earlier (j : Nat) (q : Player ℝ) (hj : j < 1)
    (hq : (crowdedState : MatchState ℝ).team1.players[j]? = some q) :
    ¬ touches Real.sqrt q (crowdedState : MatchState ℝ).ball := by
  interval_cases j
  simp only [crowdedState, List.getElem?_cons_zero, Option.some.injEq] at hq
  subst hq
  rw [touches_real_iff]
  norm_num [crowdedState]

theorem arrivingState_team1_far (j : Nat) (q : Player ℝ)
    (hq : (arrivingState : MatchState ℝ).team1.players[j]? = some q) :
    ¬ touches Real.sqrt q (arrivingState : MatchState ℝ).ball := by
  have hm := List.getElem?_mem hq
  simp only [arrivingState, cruise, Player.new, List.mem_cons, List.mem_singleton,
    List.not_mem_nil, or_false] at hm
  rw [touches_real_iff]
  rcases hm with rfl | rfl | rfl <;> norm_num [arrivingState]

theorem arrivingState_no_earlier (j : Nat) (q : Player ℝ) (hj : j < 2)
    (hq : (arrivingState : MatchState ℝ).team2.players[j]? = some q) :
    ¬ touches Real.sqrt q (arrivingState : MatchState ℝ).ball := by
  rw [touches_real_iff]
  interval_cases j
  · simp only [arrivingState, cruise, List.getElem?_cons_zero, Option.some.injEq] at hq
    subst hq
    norm_num [arrivingState, Player.new]
  · simp only [arrivingState, cruise, List.getElem?_cons_succ, List.getElem?_cons_zero,
      Option.some.injEq] at hq
    subst hq
    norm_num [arrivingState, Player.new]

theorem cruise3_far (j : Nat) (q : Player ℝ) :
    ((cruise 3 : MatchState ℝ).team1.players[j]? = some q →
      ¬ touches Real.sqrt q (cruise 3 : MatchState ℝ).ball) ∧
    ((cruise 3 : MatchState ℝ).team2.players[j]? = some q →
      ¬ touches Real.sqrt q (cruise 3 : MatchState ℝ).ball) := by
  constructor <;>
  · intro hq
    have hm := List.getElem?_mem hq
    simp only [cruise, Player.new, List.mem_cons, List.mem_singleton,
      List.not_mem_nil, or_false] at hm
    rw [touches_real_iff]
    rcases hm with rfl | rfl | rfl <;> norm_num [cruise]

/-- Witness of C13 as amended. In `thresholdState`, in binary32, the first player of
team 1 passes the test and gets the ball. With exact arithmetic: in `crowdedState`
the second player of team 1, 20 away from the ball, gets it although the first
player of team 2 is only 5 away; in `arrivingState` no player of team 1 passes and
the third player of team 2 gets the ball; in `cruise 3` nobody passes and the ball
is left as it is; the possessed ball of `heldOver true` is left as it is. -/
theorem attachment_order_witness :
    (thresholdState.ball.possessedBy = none ∧
      (collisionStep sqrtF32 thresholdState).ball.possessedBy = some ⟨TeamId.team1, 0⟩ ∧
      (collisionStep sqrtF32 thresholdState).ball.vx = 0 ∧
      (collisionStep sqrtF32 thresholdState).ball.vy = 0) ∧
    ((crowdedState : MatchState ℝ).ball.possessedBy = none ∧
      touches Real.sqrt (Player.new 420 300) (crowdedState : MatchState ℝ).ball ∧
      (crowdedState : MatchState ℝ).team2.players[0]? =
        some { x := 403, y := 304, radius := 20, active := true, dirX := -1, dirY := 0 } ∧
      Real.sqrt ((403 - (crowdedState : MatchState ℝ).ball.x) ^ 2 +
        (304 - (crowdedState : MatchState ℝ).ball.y) ^ 2) = 5 ∧
      (collisionStep Real.sqrt crowdedState).ball.possessedBy = some ⟨TeamId.team1, 1⟩ ∧
      (collisionStep Real.sqrt crowdedState).ball.vx = 0 ∧
      (collisionStep Real.sqrt crowdedState).ball.vy = 0) ∧
    (collisionStep Real.sqrt arrivingState).ball.possessedBy = some ⟨TeamId.team2, 2⟩ ∧
    (collisionStep Real.sqrt (cruise 3)).ball = (cruise 3 : MatchState ℝ).ball ∧
    ((heldOver true : MatchState ℝ).ball.possessedBy ≠ none ∧
      collisionStep Real.sqrt (heldOver true) = heldOver true) := by
  have ht1 : touches Real.sqrt (Player.new 420 300) (crowdedState : MatchState ℝ).ball := by
    rw [touches_real_iff]
    norm_num [crowdedState, Player.new]
  have ht2 : touches Real.sqrt
      ({ x := 515, y := 400, radius := 20, active := true, dirX := -1, dirY := 0 } : Player ℝ)
      (arrivingState : MatchState ℝ).ball := by
    rw [touches_real_iff]
    norm_num [arrivingState]
  have hT := ((attachment_order sqrtF32 thresholdState thresholdState_radii.1
    thresholdState_radii.2.1 thresholdState_radii.2.2).2.1 rfl).1 0 _ rfl
    thresholdState_touches (fun j q hj _ => absurd hj (Nat.not_lt_zero j))
  have hA := ((attachment_order Real.sqrt crowdedState crowdedState_radii.1
    crowdedState_radii.2.1 crowdedState_radii.2.2).2.1 rfl).1 1 (Player.new 420 300) rfl ht1
    crowdedState_no_earlier
  have hB := ((attachment_order Real.sqrt arrivingState (cruise_radii 27).1
    (cruise_radii 27).2.1 (cruise_radii 27).2.2).2.1 rfl).2.1 2 _ arrivingState_team1_far
    rfl ht2 arrivingState_no_earlier
  have hC := ((attachment_order Real.sqrt (cruise 3) (cruise_radii 3).1 (cruise_radii 3).2.1
    (cruise_radii 3).2.2).2.1 rfl).2.2.1 (fun j q => (cruise3_far j q).1)
    (fun j q => (cruise3_far j q).2)
  have hD := (attachment_order Real.sqrt (heldOver true) (cruise_radii 27).1
    (cruise_radii 27).2.1 (cruise_radii 27).2.2).1 (Option.some_ne_none _)
  have h5 : Real.sqrt ((403 - (crowdedState : MatchState ℝ).ball.x) ^ 2 +
      (304 - (crowdedState : MatchState ℝ).ball.y) ^ 2) = 5 := by
    rw [show ((403 - (crowdedState : MatchState ℝ).ball.x) ^ 2 +
      (304 - (crowdedState : MatchState ℝ).ball.y) ^ 2) = 5 ^ 2 by norm_num [crowdedState]]
    exact Real.sqrt_sq (by norm_num)
  refine ⟨⟨rfl, ?_, ?_, ?_⟩, ⟨rfl, ht1, rfl, h5, ?_, ?_, ?_⟩, ?_, hC,
    Option.some_ne_none _, hD⟩
  · rw [hT]
    rfl
  · rw [hT]
    rfl
  · rw [hT]
    rfl
  · rw [hA]
    rfl
  · rw [hA]
    rfl
  · rw [hA]
    rfl
  · rw [hB]
    rfl

/-- C13, counterexample. In `thresholdState` the ball has no possessor and every
player is at Euclidean distance more than 25 from its centre: the nearest, the first
player of team 1, has squared distance `625 + 22725 / 2 ^ 30`. In binary32 the sum
of the rounded squares rounds to 625 and its square root is 25, so the test of
`checkCollision` passes and the collision block attaches the ball to that player,
where the claim leaves it free. -/
theorem attachment_at_threshold :
    thresholdState.ball.possessedBy = none ∧
    (∀ p ∈ thresholdState.team1.players ++ thresholdState.team2.players,
      (625 : F32) < ((p.x : F32) - thresholdState.ball.x) ^ 2 +
        ((p.y : F32) - thresholdState.ball.y) ^ 2) ∧
    ((420 : ℚ) - 6474663 / 16384) ^ 2 + ((300 : ℚ) - 9929087 / 32768) ^ 2 =
      625 + 22725 / 2 ^ 30 ∧
    (25 : ℝ) <
      Real.sqrt (((420 : ℝ) - 6474663 / 16384) ^ 2 + ((300 : ℝ) - 9929087 / 32768) ^ 2) ∧
    checkCollision sqrtF32
      ({ x := 420, y := 300, radius := 20, active := true, dirX := 1, dirY := 0 } : Player F32)
      thresholdState.ball = true ∧
    (collisionStep sqrtF32 thresholdState).ball.possessedBy = some ⟨TeamId.team1, 0⟩ ∧
    (collisionStep sqrtF32 thresholdState).ball.vx = 0 ∧
    (collisionStep sqrtF32 thresholdState).ball.vy = 0 := by
  have hcheck : checkCollision sqrtF32
      ({ x := 420, y := 300, radius := 20, active := true, dirX := 1, dirY := 0 } : Player F32)
      thresholdState.ball = true :=
    (checkCollision_iff_touches sqrtF32 _ _ rfl rfl).2 thresholdState_touches
  have hattach : (collisionStep sqrtF32 thresholdState).ball =
      thresholdState.ball.attachToPlayer ⟨TeamId.team1, 0⟩ :=
    collisionStep_first_team1 sqrtF32 thresholdState 0 rfl
      (attachFirst_first sqrtF32 _ _ _ 0 _ rfl hcheck
        (fun j q hj _ => absurd hj (Nat.not_lt_zero j)))
  refine ⟨rfl, ?_, by norm_num, ?_, hcheck, ?_, ?_, ?_⟩
  · intro p hp
    simp only [thresholdState, Player.new, List.cons_append, List.nil_append, List.mem_cons,
      List.mem_singleton, List.not_mem_nil, or_false] at hp
    rcases hp with rfl | rfl | rfl | rfl | rfl | rfl <;> norm_num [thresholdState]
  · rw [Real.lt_sqrt (by norm_num)]
    norm_num
  · rw [hattach]
    rfl
  · rw [hattach]
    rfl
  · rw [hattach]
    rfl

end Attachment

/-! ## Release of a charged shot -/

section Release

variable {F : Type} [LinearOrderedField F] [FloatRounding F]

theorem tick_caught_charging :
    (tick Real.sqrt caughtState (returnInput 0)).1 = chargingState := by
  norm_num [tick, beforeGoal, cruise, caughtState, heldOver, chargingState, returnInput,
    pollEvents, handleEvent,
    movementStep, moveTeam, movePlayer, axisDelta, speed, Player.move,
    Player.updateDirection, wrapInt32, Player.new, shootingStep, shootingBlock, chargeLoop, shootLoop,
    ballStep, Ball.update, Ball.wallCollision, Ball.new, collisionStep, attachFirst,
    checkCollision_real, goalDetection, checkTimer, SCREEN_WIDTH, SCREEN_HEIGHT, List.enum,
    List.enumFrom, Goal.checkBallInside, leftGoal, rightGoal, goalWidth, goalHeight,
    subUint32, toUint32, UINT32_SIZE, MATCH_DURATION, sqrt_25, Ball.startCharging,
    MatchState.deref, resetBall]

theorem tick_charging_benched :
    (tick Real.sqrt chargingState switchInput).1 = benchedState := by
  norm_num [tick, beforeGoal, cruise, heldOver, chargingState, benchedState, switchInput,
    noKeys, pollEvents, handleEvent, Team.activateNext, Team.deactivateAll,
    movementStep, moveTeam, movePlayer, axisDelta, speed, Player.move,
    Player.updateDirection, wrapInt32, Player.new, shootingStep, shootingBlock, chargeLoop, shootLoop,
    ballStep, Ball.update, Ball.wallCollision, Ball.new, collisionStep, attachFirst,
    checkCollision_real, goalDetection, checkTimer, SCREEN_WIDTH, SCREEN_HEIGHT, List.enum,
    List.enumFrom, Goal.checkBallInside, leftGoal, rightGoal, goalWidth, goalHeight,
    subUint32, toUint32, UINT32_SIZE, MATCH_DURATION, sqrt_25, Ball.startCharging,
    MatchState.deref, resetBall, List.modify]

theorem chargingState_reachable : Reachable Real.sqrt chargingState := by
  rw [← tick_caught_charging]
  exact Reachable.step _ _ caughtState_reachable

theorem benchedState_reachable : Reachable Real.sqrt benchedState := by
  rw [← tick_charging_benched]
  exact Reachable.step _ _ chargingState_reachable

theorem shoot_of_free (deref : PlayerRef → Player F) (b : Ball F) (now : Nat)
    (h : b.possessedBy = none) : b.shoot deref now = b := by
  simp only [Ball.shoot, h]

theorem shoot_isCharging (deref : PlayerRef → Player F) (b : Ball F) (now : Nat)
    (r : PlayerRef) (h : b.possessedBy = some r) :
    (b.shoot deref now).isCharging = false := by
  simp only [Ball.shoot, h]

/-- The shooting loop from index `k` on: on a ball without possessor it does
nothing. -/
theorem shootLoopFrom_free (deref : PlayerRef → Player F) (tid : TeamId)
    (l : List (Player F)) (k : Nat) (now : Nat) (b : Ball F) (h : b.possessedBy = none) :
    (l.enumFrom k).foldl
      (fun b ip =>
        if ip.2.active && decide (b.possessedBy = some ⟨tid, ip.1⟩)
        then b.shoot deref now else b) b = b := by
  refine foldl_preserves (fun c : Ball F => c = b) _ ?_ _ b rfl
  intro c ip hc
  subst hc
  simp [h]

/-- The shooting loop from index `k` on, for a ball held by the player at index
`idx ≥ k` of this roster: it shoots when that player is active. -/
theorem shootLoopFrom_hit (deref : PlayerRef → Player F) (tid : TeamId)
    (l : List (Player F)) (k idx : Nat) (now : Nat) (b : Ball F) (p : Player F)
    (hb : b.possessedBy = some ⟨tid, k + idx⟩) (hp : l[idx]? = some p)
    (ha : p.active = true) :
    (l.enumFrom k).foldl
      (fun b ip =>
        if ip.2.active && decide (b.possessedBy = some ⟨tid, ip.1⟩)
        then b.shoot deref now else b) b = b.shoot deref now := by
  induction l generalizing k idx with
  | nil => simp at hp
  | cons a l ih =>
    rw [List.enumFrom_cons, List.foldl_cons]
    cases idx with
    | zero =>
      simp only [List.getElem?_cons_zero, Option.some.injEq] at hp
      subst hp
      have hcond : (a.active && decide (b.possessedBy = some ⟨tid, k⟩)) = true := by
        simp [ha, hb]
      rw [if_pos hcond]
      exact shootLoopFrom_free deref tid l (k + 1) now _ (shoot_possessedBy deref b now)
    | succ idx =>
      have hne : ¬ (b.possessedBy = some ⟨tid, k⟩) := by
        rw [hb]
        intro h
        have := congrArg PlayerRef.idx (Option.some.inj h)
        simp at this
      have hcond : (a.active && decide (b.possessedBy = some ⟨tid, k⟩)) = false := by
        simp [hne]
      rw [hcond]
      exact ih (k + 1) idx (by rw [hb]; congr 2; omega) (by simpa using hp)

/-- The shooting loop from index `k` on does nothing to a ball held by a player of
this roster at an index below `k`. -/
theorem shootLoopFrom_past (deref : PlayerRef → Player F) (tid : TeamId)
    (l : List (Player F)) (k j : Nat) (now : Nat) (b : Ball F)
    (hb : b.possessedBy = some ⟨tid, j⟩) (hj : j < k) :
    (l.enumFrom k).foldl
      (fun b ip =>
        if ip.2.active && decide (b.possessedBy = some ⟨tid, ip.1⟩)
        then b.shoot deref now else b) b = b := by
  induction l generalizing k with
  | nil => rfl
  | cons a l ih =>
    rw [List.enumFrom_cons, List.foldl_cons]
    have hne : ¬ (b.possessedBy = some ⟨tid, k⟩) := by
      rw [hb]
      intro h
      have := congrArg PlayerRef.idx (Option.some.inj h)
      simp at this
      omega
    have hcond : (a.active && decide (b.possessedBy = some ⟨tid, k⟩)) = false := by
      simp [hne]
    rw [hcond]
    exact ih (k + 1) (by omega)

/-- The shooting loop from index `k` on, for a ball held by the player at index
`idx ≥ k` of this roster: it does nothing when that player is not active. -/
theorem shootLoopFrom_miss (deref : PlayerRef → Player F) (tid : TeamId)
    (l : List (Player F)) (k idx : Nat) (now : Nat) (b : Ball F)
    (hb : b.possessedBy = some ⟨tid, k + idx⟩)
    (ha : ∀ p : Player F, l[idx]? = some p → p.active = false) :
    (l.enumFrom k).foldl
      (fun b ip =>
        if ip.2.active && decide (b.possessedBy = some ⟨tid, ip.1⟩)
        then b.shoot deref now else b) b = b := by
  induction l generalizing k idx with
  | nil => rfl
  | cons a l ih =>
    rw [List.enumFrom_cons, List.foldl_cons]
    cases idx with
    | zero =>
      have hina : a.active = false := ha a (by simp)
      have hcond : (a.active && decide (b.possessedBy = some ⟨tid, k⟩)) = false := by
        simp [hina]
      rw [hcond]
      exact shootLoopFrom_past deref tid l (k + 1) k now b hb (Nat.lt_succ_self k)
    | succ idx =>
      have hne : ¬ (b.possessedBy = some ⟨tid, k⟩) := by
        rw [hb]
        intro h
        have := congrArg PlayerRef.idx (Option.some.inj h)
        simp at this
      have hcond : (a.active && decide (b.possessedBy = some ⟨tid, k⟩)) = false := by
        simp [hne]
      rw [hcond]
      exact ih (k + 1) idx (by rw [hb]; congr 2; omega)
        (fun p hp => ha p (by simpa using hp))

theorem shootLoop_hit (deref : PlayerRef → Player F) (tid : TeamId)
    (players : List (Player F)) (idx : Nat) (now : Nat) (b : Ball F) (p : Player F)
    (hb : b.possessedBy = some ⟨tid, idx⟩) (hp : players[idx]? = some p)
    (ha : p.active = true) :
    shootLoop deref tid players now b = b.shoot deref now := by
  unfold shootLoop List.enum
  exact shootLoopFrom_hit deref tid players 0 idx now b p (by rw [hb, Nat.zero_add]) hp ha

theorem shootLoop_miss (deref : PlayerRef → Player F) (tid : TeamId)
    (players : List (Player F)) (idx : Nat) (now : Nat) (b : Ball F)
    (hb : b.possessedBy = some ⟨tid, idx⟩)
    (ha : ∀ p : Player F, players[idx]? = some p → p.active = false) :
    shootLoop deref tid players now b = b := by
  unfold shootLoop List.enum
  exact shootLoopFrom_miss deref tid players 0 idx now b (by rw [hb, Nat.zero_add]) ha

theorem chargeLoop_free (tid : TeamId) (players : List (Player F)) (now : Nat) (b : Ball F)
    (h : b.possessedBy = none) : chargeLoop tid players now b = b := by
  unfold chargeLoop
  refine foldl_preserves (fun c : Ball F => c = b) _ ?_ _ b rfl
  intro c ip hc
  subst hc
  simp [h]

/-- A shooting block does nothing to a ball without possessor. -/
theorem shootingBlock_free (deref : PlayerRef → Player F) (tid : TeamId)
    (players : List (Player F)) (key : Bool) (now : Nat) (b : Ball F)
    (h : b.possessedBy = none) : shootingBlock deref tid players key now b = b := by
  unfold shootingBlock
  split_ifs with h1 h2
  · exact chargeLoop_free tid players now b h
  · simp [h] at h2
  · rfl

/-- A shooting block whose charge key is up, on a charging ball held by the player
at index `idx` of its roster: the ball is shot when that player is active. -/
theorem shootingBlock_release_hit (deref : PlayerRef → Player F) (tid : TeamId)
    (players : List (Player F)) (idx : Nat) (now : Nat) (b : Ball F) (p : Player F)
    (hb : b.possessedBy = some ⟨tid, idx⟩) (hc : b.isCharging = true)
    (hp : players[idx]? = some p) (ha : p.active = true) :
    shootingBlock deref tid players false now b = b.shoot deref now := by
  unfold shootingBlock
  simp only [Bool.false_eq_true, if_false, hc, hb, Option.isSome_some, Bool.and_self, if_true]
  exact shootLoop_hit deref tid players idx now b p hb hp ha

/-- A shooting block whose charge key is up, on a ball held by the player at index
`idx` of its roster: the ball is left alone when that player is not active. -/
theorem shootingBlock_release_miss (deref : PlayerRef → Player F) (tid : TeamId)
    (players : List (Player F)) (idx : Nat) (now : Nat) (b : Ball F)
    (hb : b.possessedBy = some ⟨tid, idx⟩)
    (ha : ∀ p : Player F, players[idx]? = some p → p.active = false) :
    shootingBlock deref tid players false now b = b := by
  unfold shootingBlock
  simp only [Bool.false_eq_true, if_false]
  split_ifs
  · exact shootLoop_miss deref tid players idx now b hb ha
  · rfl

theorem move_active (sqrtF : F → F) (p : Player F) (dx dy : Int) :
    (p.move sqrtF dx dy).active = p.active := by
  unfold Player.move Player.updateDirection
  dsimp only
  split_ifs <;> rfl

theorem movePlayer_active (sqrtF : F → F) (dx dy : Int) (p : Player F) :
    (movePlayer sqrtF dx dy p).active = p.active := by
  unfold movePlayer
  split_ifs
  · rfl
  · exact move_active sqrtF p dx dy
  · rfl

theorem moveTeam_activeAt (sqrtF : F → F) (dx dy : Int) (t : Team F) (idx : Nat) :
    (moveTeam sqrtF dx dy t).activeAt idx = t.activeAt idx := by
  unfold Team.activeAt moveTeam
  simp only [List.getElem?_map]
  cases t.players[idx]? with
  | none => rfl
  | some p => exact movePlayer_active sqrtF dx dy p

theorem movementStep_activeAt (sqrtF : F → F) (s : MatchState F) (k : Keys) (tid : TeamId)
    (idx : Nat) :
    ((movementStep sqrtF s k).team tid).activeAt idx = (s.team tid).activeAt idx := by
  cases tid
  · exact moveTeam_activeAt sqrtF _ _ s.team1 idx
  · exact moveTeam_activeAt sqrtF _ _ s.team2 idx

theorem activeAt_true (t : Team F) (idx : Nat) (h : t.activeAt idx = true) :
    ∃ p : Player F, t.players[idx]? = some p ∧ p.active = true := by
  unfold Team.activeAt at h
  cases hp : t.players[idx]? with
  | none => simp [hp] at h
  | some p =>
    rw [hp] at h
    exact ⟨p, rfl, h⟩

theorem activeAt_false (t : Team F) (idx : Nat) (h : t.activeAt idx = false) :
    ∀ p : Player F, t.players[idx]? = some p → p.active = false := by
  intro p hp
  unfold Team.activeAt at h
  rw [hp] at h
  exact h

/-- The shooting step on a charging ball held by a player of team T while the
charge key of team T is up: a shot when the possessor is active, nothing when not. -/
theorem shootingStep_release (s : MatchState F) (i : Input) (r : PlayerRef)
    (hposs : s.ball.possessedBy = some r) (hch : s.ball.isCharging = true)
    (hkey : chargeKey i.keys r.team = false) :
    ((s.team r.team).activeAt r.idx = true →
      (shootingStep s i).ball.possessedBy = none ∧
      (shootingStep s i).ball.isCharging = false) ∧
    ((s.team r.team).activeAt r.idx = false → (shootingStep s i).ball = s.ball) := by
  obtain ⟨tid, idx⟩ := r
  unfold shootingStep
  dsimp only
  cases tid with
  | team1 =>
    have hE : i.keys.E = false := hkey
    rw [hE]
    constructor
    · intro ha
      obtain ⟨p, hp, hpa⟩ := activeAt_true _ _ ha
      rw [shootingBlock_release_hit s.deref TeamId.team1 s.team1.players idx i.ticksTeam1
        s.ball p hposs hch hp hpa]
      rw [shootingBlock_free _ _ _ _ _ _ (shoot_possessedBy _ _ _)]
      exact ⟨shoot_possessedBy _ _ _, shoot_isCharging _ _ _ _ hposs⟩
    · intro ha
      rw [shootingBlock_release_miss s.deref TeamId.team1 s.team1.players idx i.ticksTeam1
        s.ball hposs (activeAt_false _ _ ha)]
      exact shootingBlock_other_team _ TeamId.team2 _ _ _ _ _ hposs
        (fun h => TeamId.noConfusion h)
  | team2 =>
    have hR : i.keys.RETURN = false := hkey
    rw [hR, shootingBlock_other_team _ TeamId.team1 _ _ _ _ _ hposs
      (fun h => TeamId.noConfusion h)]
    constructor
    · intro ha
      obtain ⟨p, hp, hpa⟩ := activeAt_true _ _ ha
      rw [shootingBlock_release_hit _ TeamId.team2 s.team2.players idx i.ticksTeam2
        s.ball p hposs hch hp hpa]
      exact ⟨shoot_possessedBy _ _ _, shoot_isCharging _ _ _ _ hposs⟩
    · intro ha
      exact shootingBlock_release_miss _ TeamId.team2 s.team2.players idx i.ticksTeam2
        s.ball hposs (activeAt_false _ _ ha)

/-- C12 as amended. In a tick that starts with the ball charging and held by a
player of team T, and in which the charge key of team T is up, the shooting step
shoots the ball (possessor cleared, charging flag false) when the possessor is the
active player of team T once the selection events of the tick are handled; when
the possessor is not active the shooting step leaves the ball as it is, still
possessed and charging. -/
theorem release_shoots (sqrtF : F → F) (s : MatchState F) (i : Input) (r : PlayerRef)
    (hposs : s.ball.possessedBy = some r) (hch : s.ball.isCharging = true)
    (hkey : chargeKey i.keys r.team = false) :
    (((pollEvents s i.events).team r.team).activeAt r.idx = true →
      (afterShooting sqrtF s i).ball.possessedBy = none ∧
      (afterShooting sqrtF s i).ball.isCharging = false) ∧
    (((pollEvents s i.events).team r.team).activeAt r.idx = false →
      (afterShooting sqrtF s i).ball = s.ball) ∧
    beforeGoal sqrtF s i = collisionStep sqrtF (ballStep (afterShooting sqrtF s i)) := by
  have hball : (movementStep sqrtF (pollEvents s i.events) i.keys).ball = s.ball := by
    rw [movementStep_ball, pollEvents_ball]
  have hact := movementStep_activeAt sqrtF (pollEvents s i.events) i.keys r.team r.idx
  have h := shootingStep_release (movementStep sqrtF (pollEvents s i.events) i.keys) i r
    (by rw [hball]; exact hposs) (by rw [hball]; exact hch) hkey
  rw [hact, hball] at h
  exact ⟨h.1, h.2, rfl⟩

/-- Witness of C12 as amended. In `chargingState` the possessor is the active player
of team 2 and Return is up: the ball is shot. In `benchedState` the possessor is
not active: the ball stays possessed and charging. -/
theorem release_shoots_witness :
    ((chargingState : MatchState ℝ).ball.possessedBy = some ⟨TeamId.team2, 2⟩ ∧
      (chargingState : MatchState ℝ).ball.isCharging = true ∧
      chargeKey (idleInput 500).keys TeamId.team2 = false ∧
      (afterShooting Real.sqrt chargingState (idleInput 500)).ball.possessedBy = none ∧
      (afterShooting Real.sqrt chargingState (idleInput 500)).ball.isCharging = false) ∧
    ((benchedState : MatchState ℝ).ball.possessedBy = some ⟨TeamId.team2, 2⟩ ∧
      (benchedState : MatchState ℝ).ball.isCharging = true ∧
      (afterShooting Real.sqrt benchedState (idleInput 500)).ball = benchedState.ball) :=
  ⟨⟨rfl, rfl, rfl,
      (release_shoots Real.sqrt chargingState (idleInput 500) ⟨TeamId.team2, 2⟩
        rfl rfl rfl).1 rfl⟩,
    ⟨rfl, rfl,
      (release_shoots Real.sqrt benchedState (idleInput 500) ⟨TeamId.team2, 2⟩
        rfl rfl rfl).2.1 rfl⟩⟩

/-- C12, counterexample. Both ticks start in a reachable state with the ball
charging and held by the third player of team 2, and Return is up. In the first
tick a press of the right bracket selects another player of team 2 before the
shooting step; the second tick starts with that other player active. After the
shooting step of either tick the ball is still possessed and charging. -/
theorem release_without_shot :
    (Reachable Real.sqrt chargingState ∧
      (chargingState : MatchState ℝ).ball.isCharging = true ∧
      (chargingState : MatchState ℝ).ball.possessedBy = some ⟨TeamId.team2, 2⟩ ∧
      chargeKey switchInput.keys TeamId.team2 = false ∧
      (afterShooting Real.sqrt chargingState switchInput).ball.possessedBy =
        some ⟨TeamId.team2, 2⟩ ∧
      (afterShooting Real.sqrt chargingState switchInput).ball.isCharging = true) ∧
    (Reachable Real.sqrt benchedState ∧
      (benchedState : MatchState ℝ).ball.isCharging = true ∧
      (benchedState : MatchState ℝ).ball.possessedBy = some ⟨TeamId.team2, 2⟩ ∧
      chargeKey (idleInput 500).keys TeamId.team2 = false ∧
      (afterShooting Real.sqrt benchedState (idleInput 500)).ball.possessedBy =
        some ⟨TeamId.team2, 2⟩ ∧
      (afterShooting Real.sqrt benchedState (idleInput 500)).ball.isCharging = true) := by
  have h1 : (afterShooting Real.sqrt chargingState switchInput).ball =
      (chargingState : MatchState ℝ).ball := by
    norm_num [afterShooting, cruise, heldOver, chargingState, switchInput,
      noKeys, pollEvents, handleEvent, Team.activateNext, Team.deactivateAll,
      movementStep, moveTeam, movePlayer, axisDelta, speed, Player.new, shootingStep,
      shootingBlock, chargeLoop, shootLoop, List.enum, List.enumFrom, List.modify]
  have h2 : (afterShooting Real.sqrt benchedState (idleInput 500)).ball =
      (benchedState : MatchState ℝ).ball := by
    norm_num [afterShooting, cruise, heldOver, chargingState, benchedState, idleInput,
      noKeys, pollEvents, handleEvent,
      movementStep, moveTeam, movePlayer, axisDelta, speed, Player.new, shootingStep,
      shootingBlock, chargeLoop, shootLoop, List.enum, List.enumFrom]
  refine ⟨⟨chargingState_reachable, rfl, rfl, rfl, ?_, ?_⟩,
    ⟨benchedState_reachable, rfl, rfl, rfl, ?_, ?_⟩⟩
  · rw [h1]
    rfl
  · rw [h1]
    rfl
  · rw [h2]
    rfl
  · rw [h2]
    rfl

end Release

end BTL2
